/-
Verification of the data-wrangling core and refresh callback of the
Covid-19 dashboard notebook (src/Dashboard.ipynb).

The notebook's functions `parse_date`, `initialize_dataframe`,
`set_dataframe_value`, `wrangle_data` and `api_button_callback` are embedded
as Lean functions below.  Python exceptions are modelled with `Except`:
`PyError.valueError` stands for the ValueError raised by
`pd.to_datetime(s, format="%Y-%m-%d")` on a malformed date string,
`PyError.indexError` for the IndexError raised by `dates[0]` on an empty
list, and `PyError.keyError` for the KeyError raised by `entry[column]`
on an absent key (or by `df.loc[date, column]` on an absent label).

A pandas DataFrame is modelled positionally: a list of row labels (calendar
days encoded as day ordinals), a list of column labels, and a row-major grid
of cells, where `none` stands for NaN (an unset cell).  Raw JSON records are
modelled as a date string plus an association list from field names to
`Option ℚ` (`none` is the JSON null, the "no data" marker); numeric JSON
values are modelled as rationals, which is faithful because JSON has no
infinity or NaN literal.
-/
import Mathlib

set_option maxHeartbeats 1000000

/-! ## Calendar arithmetic

`pd.to_datetime` and `pd.date_range(freq='D')` work on a proleptic Gregorian
calendar.  We encode a calendar date by its (1-based) day ordinal, so that
consecutive calendar days have consecutive ordinals. -/

/-- Gregorian leap-year test. -/
def leapYear (y : Nat) : Bool := (y % 4 == 0 && y % 100 != 0) || y % 400 == 0

/-- Number of days in month `m` of a year whose leap flag is `l`. -/
def daysInMonth (l : Bool) (m : Nat) : Nat :=
  match m with
  | 2 => if l then 29 else 28
  | 4 | 6 | 9 | 11 => 30
  | _ => 31

/-- Days in the months strictly before month `m` (leap flag `l`). -/
def daysBeforeMonth (l : Bool) (m : Nat) : Nat :=
  let k := if l then 1 else 0
  match m with
  | 1 => 0
  | 2 => 31
  | 3 => 59 + k
  | 4 => 90 + k
  | 5 => 120 + k
  | 6 => 151 + k
  | 7 => 181 + k
  | 8 => 212 + k
  | 9 => 243 + k
  | 10 => 273 + k
  | 11 => 304 + k
  | 12 => 334 + k
  | _ => 0

/-- Days in all years strictly before year `y` (year 1 is the first year). -/
def daysBeforeYear (y : Nat) : Nat :=
  365 * (y - 1) + (y - 1) / 4 + (y - 1) / 400 - (y - 1) / 100

/-- A calendar date. -/
structure Date where
  year : Nat
  month : Nat
  day : Nat
deriving DecidableEq, Repr

/-- Day ordinal of a date: consecutive calendar days get consecutive ordinals. -/
def toOrdinal (d : Date) : Nat :=
  daysBeforeYear d.year + daysBeforeMonth (leapYear d.year) d.month + d.day

/-- Numeric value of an ASCII digit character. -/
def digitVal (c : Char) : Nat := c.toNat - 48

/-- Parse the character list of a zero-padded YYYY-MM-DD date string,
validating month and day ranges (with leap years). -/
def parseDateChars : List Char → Option Date
  | [y1, y2, y3, y4, h1, m1, m2, h2, d1, d2] =>
    if y1.isDigit && y2.isDigit && y3.isDigit && y4.isDigit && h1 == '-' &&
       m1.isDigit && m2.isDigit && h2 == '-' && d1.isDigit && d2.isDigit then
      let y := 1000 * digitVal y1 + 100 * digitVal y2 + 10 * digitVal y3 + digitVal y4
      let m := 10 * digitVal m1 + digitVal m2
      let d := 10 * digitVal d1 + digitVal d2
      if 1 ≤ y && 1 ≤ m && m ≤ 12 && 1 ≤ d && d ≤ daysInMonth (leapYear y) m then
        some ⟨y, m, d⟩
      else none
    else none
  | _ => none

/-- Embeds `parse_date` from the notebook: `pd.to_datetime(datestring,
format="%Y-%m-%d")`, on canonical zero-padded YYYY-MM-DD strings (the format
delivered by the JSON file and the PHE API).  Returns `none` where pandas
raises a date-interpretation error.  (The pandas Timestamp year bounds
1677-2262 are not modelled.) -/
def parse_date (s : String) : Option Date := parseDateChars s.data

/-- Embeds `pd.date_range(lo, hi, freq='D')`: all day ordinals from `lo` to
`hi` inclusive (empty when `hi < lo`). -/
def dateRange (lo hi : Nat) : List Nat :=
  (List.range (hi + 1 - lo)).map (lo + ·)

/-! ## Data model -/

/-- A raw JSON value for a named numeric field: `none` is the JSON null
("no data" marker), `some q` a number. -/
abbrev RawValue := Option ℚ

/-- A raw record: one day's reported statistics.  `date` is the value of the
'Date' field; `fields` maps the remaining field names to raw values. -/
structure Entry where
  date : String
  fields : List (String × RawValue)
deriving DecidableEq, Repr

/-- The day ordinal of an entry's parsed date, when it parses. -/
def recOrd (e : Entry) : Option Nat := (parse_date e.date).map toOrdinal

/-- The Python exceptions the wrangling code can raise. -/
inductive PyError
  | valueError
  | indexError
  | keyError
deriving DecidableEq, Repr

/-- A pandas DataFrame, positionally: row labels (day ordinals), column
labels, and a row-major grid where `none` is NaN. -/
structure DataFrame where
  index : List Nat
  columns : List String
  cells : List (List (Option ℚ))
deriving DecidableEq, Repr

/-- Position of the row labelled `d`, if present. -/
def rowPos (df : DataFrame) (d : Nat) : Option Nat := df.index.findIdx? (· == d)

/-- Position of the column labelled `c`, if present. -/
def colPos (df : DataFrame) (c : String) : Option Nat := df.columns.findIdx? (· == c)

/-- The cell at row label `d` and column label `c`; `none` when the cell is
NaN (or the labels are absent). -/
def cellVal (df : DataFrame) (d : Nat) (c : String) : Option ℚ :=
  match rowPos df d, colPos df c with
  | some ri, some ci => (df.cells.getD ri []).getD ci none
  | _, _ => none

/-- Well-formedness of the grid: one row of cells per row label, one cell per
column label. -/
def DFShape (df : DataFrame) : Prop :=
  df.cells.length = df.index.length ∧ ∀ row ∈ df.cells, row.length = df.columns.length

/-- Overwrite the grid cell at row position `ri`, column position `ci`. -/
def setCell (df : DataFrame) (ri ci : Nat) (v : Option ℚ) : DataFrame :=
  { df with cells := df.cells.set ri ((df.cells.getD ri []).set ci v) }

/-! ## The wrangling functions -/

/-- Python's lexicographic comparison of strings as sequences of code
points: `charListLe as bs = true` iff `as ≤ bs`. -/
def charListLe : List Char → List Char → Bool
  | [], _ => true
  | _ :: _, [] => false
  | a :: as, b :: bs =>
    if a.toNat < b.toNat then true
    else if b.toNat < a.toNat then false
    else charListLe as bs

/-- Python's `<=` on strings (code-point lexicographic). -/
def strLe (a b : String) : Prop := charListLe a.data b.data = true

instance : DecidableRel strLe := fun a b => by unfold strLe; infer_instance

/-- Embeds `initialize_dataframe`: collects all 'Date' strings, sorts them
(Python list.sort on strings, i.e. code-point lexicographic), and builds an
empty frame indexed by the daily range from the first to the last sorted
date.  `dates[0]` on an empty list raises IndexError. -/
def initialize_dataframe (rawdata : List Entry) (column_array : List String) :
    Except PyError DataFrame :=
  let dates := rawdata.map (·.date)
  match dates.insertionSort strLe with
  | [] => .error .indexError
  | d0 :: rest =>
    let dlast := (d0 :: rest).getLast (List.cons_ne_nil d0 rest)
    match parse_date d0, parse_date dlast with
    | some a, some b =>
      let index := dateRange (toOrdinal a) (toOrdinal b)
      .ok ⟨index, column_array,
           List.replicate index.length (List.replicate column_array.length none)⟩
    | _, _ => .error .valueError

/-- Embeds `set_dataframe_value`: parses the entry's date, reads
`df.loc[date, column]` (KeyError when a label is absent), and if that cell is
NaN writes `float(entry[column])`, substituting 0.0 for None; `entry[column]`
raises KeyError when the key is absent.  A cell that is already set is left
untouched. -/
def set_dataframe_value (df : DataFrame) (entry : Entry) (column : String) :
    Except PyError DataFrame :=
  match parse_date entry.date with
  | none => .error .valueError
  | some dt =>
    match rowPos df (toOrdinal dt), colPos df column with
    | some ri, some ci =>
      if ((df.cells.getD ri []).getD ci none).isNone then
        match entry.fields.lookup column with
        | none => .error .keyError
        | some v => .ok (setCell df ri ci (some (v.getD 0)))
      else .ok df
    | _, _ => .error .keyError

/-- Embeds `df.fillna(0.0)`: every NaN cell of the grid becomes 0.0. -/
def fillna (df : DataFrame) : DataFrame :=
  { df with cells := df.cells.map (fun row => row.map (fun v => some (v.getD 0))) }

/-- The inner loop of `wrangle_data`: one entry written into every requested
column in order. -/
def fillEntry (column_array : List String) (df : DataFrame) (entry : Entry) :
    Except PyError DataFrame :=
  column_array.foldlM (fun df column => set_dataframe_value df entry column) df

/-- Embeds `wrangle_data`: initialize the frame, fill it from each record in
input order (inner loop over the requested columns), then fill remaining
holes with 0.0. -/
def wrangle_data (rawdata : List Entry) (column_array : List String) :
    Except PyError DataFrame := do
  let df ← initialize_dataframe rawdata column_array
  let df ← rawdata.foldlM (fillEntry column_array) df
  return fillna df

/-! ## The refresh callback -/

/-- The visual state of the refresh button. -/
structure ButtonState where
  icon : String
  disabled : Bool
  description : String
deriving DecidableEq, Repr

/-- The global state read and written by `api_button_callback`. -/
structure DashState where
  hospital_ventilator_df : DataFrame
  vaccine_cases_df : DataFrame
  apibutton : ButtonState
deriving DecidableEq, Repr

/-- The column set of the first dashboard table. -/
def hv_columns : List String :=
  ["Hospital Admissions", "Occupied Ventilator Beds", "Daily Deaths"]

/-- The column set of the second dashboard table. -/
def vc_columns : List String := ["Daily Cases", "Daily Vaccines Administered"]

/-- Button state after the success branch of the callback. -/
def successButton : ButtonState := ⟨"check", true, "REFRESHED"⟩

/-- Button state after the except branch of the callback. -/
def failureButton : ButtonState := ⟨"times", true, "UNAVAILABLE"⟩

/-- Embeds `api_button_callback`.  `fetched` is the outcome of
`access_api()['data']` (`Except.error ()` when the API raises).  The try
block assigns the first global dataframe before wrangling the second, so an
exception raised by the second wrangle lands in the except branch with the
first table already replaced. -/
def api_button_callback (fetched : Except Unit (List Entry)) (s : DashState) : DashState :=
  match fetched with
  | .error _ => { s with apibutton := failureButton }
  | .ok apidata =>
    match wrangle_data apidata hv_columns with
    | .error _ => { s with apibutton := failureButton }
    | .ok t1 =>
      match wrangle_data apidata vc_columns with
      | .error _ => { s with hospital_ventilator_df := t1, apibutton := failureButton }
      | .ok t2 =>
        { hospital_ventilator_df := t1, vaccine_cases_df := t2, apibutton := successButton }

deriving instance DecidableEq for Except

/-! ## Generic lemmas about Except folds -/

theorem exc_bind_ok {ε β γ : Type} (b : β) (g : β → Except ε γ) :
    (Except.ok b >>= g) = g b := rfl

theorem exc_bind_error {ε β γ : Type} (e : ε) (g : β → Except ε γ) :
    ((Except.error e : Except ε β) >>= g) = Except.error e := rfl

theorem foldlM_exc_induct {α β ε : Type} (f : β → α → Except ε β) (P : β → Prop)
    (hstep : ∀ b a b', P b → f b a = .ok b' → P b') :
    ∀ (l : List α) (b b' : β), P b → l.foldlM f b = .ok b' → P b' := by
  intro l
  induction l with
  | nil => intro b b' hb h; simp only [List.foldlM_nil] at h; cases h; exact hb
  | cons a t ih =>
    intro b b' hb h
    rw [List.foldlM_cons] at h
    cases hfa : f b a with
    | error e => rw [hfa, exc_bind_error] at h; cases h
    | ok b1 => rw [hfa, exc_bind_ok] at h; exact ih b1 b' (hstep b a b1 hb hfa) h

theorem foldlM_exc_error {α β ε : Type} (f : β → α → Except ε β) (Q : ε → Prop)
    (hstep : ∀ b a err, f b a = .error err → Q err) :
    ∀ (l : List α) (b : β) (err : ε), l.foldlM f b = .error err → Q err := by
  intro l
  induction l with
  | nil => intro b err h; simp only [List.foldlM_nil] at h; cases h
  | cons a t ih =>
    intro b err h
    rw [List.foldlM_cons] at h
    cases hfa : f b a with
    | error e => rw [hfa, exc_bind_error] at h; cases h; exact hstep b a err hfa
    | ok b1 => rw [hfa, exc_bind_ok] at h; exact ih b1 err h

/-! ## Structural lemmas about the wrangling loop -/

theorem set_dataframe_value_ok_inv {df df' : DataFrame} {e : Entry} {c : String}
    (h : set_dataframe_value df e c = .ok df') :
    df'.index = df.index ∧ df'.columns = df.columns := by
  unfold set_dataframe_value at h
  repeat' split at h
  all_goals cases h
  all_goals exact ⟨rfl, rfl⟩

theorem set_dataframe_value_error_ne_index {df : DataFrame} {e : Entry} {c : String}
    {err : PyError} (h : set_dataframe_value df e c = .error err) : err ≠ .indexError := by
  unfold set_dataframe_value at h
  repeat' split at h
  all_goals cases h
  all_goals simp

theorem fillEntry_ok_inv {cols : List String} {df df' : DataFrame} {e : Entry}
    (h : fillEntry cols df e = .ok df') : df'.index = df.index ∧ df'.columns = df.columns :=
  foldlM_exc_induct _ (fun d => d.index = df.index ∧ d.columns = df.columns)
    (fun _ _ _ hb hs => by
      obtain ⟨h1, h2⟩ := set_dataframe_value_ok_inv hs
      exact ⟨h1.trans hb.1, h2.trans hb.2⟩)
    cols df df' ⟨rfl, rfl⟩ h

theorem fillEntry_error_ne_index {cols : List String} {df : DataFrame} {e : Entry}
    {err : PyError} (h : fillEntry cols df e = .error err) : err ≠ .indexError :=
  foldlM_exc_error _ (fun x => x ≠ .indexError)
    (fun _ _ _ hs => set_dataframe_value_error_ne_index hs) cols df err h

theorem wrangleLoop_ok_inv {cols : List String} {records : List Entry} {df df' : DataFrame}
    (h : records.foldlM (fillEntry cols) df = .ok df') :
    df'.index = df.index ∧ df'.columns = df.columns :=
  foldlM_exc_induct _ (fun d => d.index = df.index ∧ d.columns = df.columns)
    (fun _ _ _ hb hs => by
      obtain ⟨h1, h2⟩ := fillEntry_ok_inv hs
      exact ⟨h1.trans hb.1, h2.trans hb.2⟩)
    records df df' ⟨rfl, rfl⟩ h

theorem wrangleLoop_error_ne_index {cols : List String} {records : List Entry} {df : DataFrame}
    {err : PyError} (h : records.foldlM (fillEntry cols) df = .error err) :
    err ≠ .indexError :=
  foldlM_exc_error _ (fun x => x ≠ .indexError)
    (fun _ _ _ hs => fillEntry_error_ne_index hs) records df err h

theorem initialize_indexError_iff (records : List Entry) (cols : List String) :
    initialize_dataframe records cols = .error .indexError ↔ records = [] := by
  constructor
  · intro h
    simp only [initialize_dataframe] at h
    split at h
    next hs =>
      have hp := List.perm_insertionSort strLe (records.map (·.date))
      rw [hs] at hp
      have hl := hp.length_eq
      simp only [List.length_nil, List.length_map] at hl
      exact List.eq_nil_of_length_eq_zero hl.symm
    next => repeat' split at h <;> cases h
  · intro h; subst h; rfl

/-- C8: on an empty records list `wrangle_data` fails with the error that the
code raises exactly on empty input (the IndexError from `dates[0]`, the
concrete form of the spec's PreconditionError), and with that error only on
empty input. -/
theorem claim8_empty_input_error (records : List Entry) (cols : List String) :
    wrangle_data records cols = .error .indexError ↔ records = [] := by
  constructor
  · intro h
    unfold wrangle_data at h
    cases hinit : initialize_dataframe records cols with
    | error e =>
      rw [hinit, exc_bind_error] at h
      cases h
      exact (initialize_indexError_iff records cols).mp hinit
    | ok df =>
      rw [hinit, exc_bind_ok] at h
      cases hloop : records.foldlM (fillEntry cols) df with
      | error e =>
        rw [hloop, exc_bind_error] at h
        cases h
        exact absurd rfl (wrangleLoop_error_ne_index hloop)
      | ok df2 => rw [hloop, exc_bind_ok] at h; cases h
  · intro h; subst h; rfl

/-- C8 witness: the empty list with a sample column set. -/
theorem claim8_witness : wrangle_data [] ["A"] = .error .indexError :=
  (claim8_empty_input_error [] ["A"]).mpr rfl

/-- C9: `wrangle_data` is a pure function of its two arguments — the
embedding carries no other state, so two calls on the same record list and
column list yield identical tables. -/
theorem claim9_deterministic (records : List Entry) (cols : List String) :
    wrangle_data records cols = wrangle_data records cols := rfl

/-- C10: both the success branch and the except branch of
`api_button_callback` disable the refresh button, so a completed refresh
attempt — successful or failed — leaves the button disabled. -/
theorem claim10_button_disabled (fetched : Except Unit (List Entry)) (s : DashState) :
    (api_button_callback fetched s).apibutton.disabled = true := by
  unfold api_button_callback
  repeat' split
  all_goals rfl

/-- A dashboard state holding two previously displayed tables. -/
def dashState0 : DashState :=
  ⟨⟨[0], ["x"], [[some 1]]⟩, ⟨[0], ["y"], [[some 2]]⟩, ⟨"download", false, "REFRESH"⟩⟩

/-- A fetch result whose single record carries every hospital-table field but
lacks the 'Daily Cases' field. -/
def brokenFetch : Except Unit (List Entry) :=
  .ok [⟨"2021-01-01", [("Hospital Admissions", some 1), ("Occupied Ventilator Beds", some 2),
                       ("Daily Deaths", some 3), ("Daily Vaccines Administered", some 4)]⟩]

/-- The hospital table wrangled from the `brokenFetch` records. -/
def brokenHospitalDf : DataFrame := ⟨[737791], hv_columns, [[some 1, some 2, some 3]]⟩

/-- C5 counterexample: on `brokenFetch` the first wrangle succeeds and the
second raises KeyError, so the callback ends in a state where the hospital
table has been replaced but the vaccine table has not — the cycle neither
fully succeeded nor left both tables unmodified. -/
theorem claim5_counterexample :
    (api_button_callback brokenFetch dashState0).hospital_ventilator_df ≠
        dashState0.hospital_ventilator_df ∧
    (api_button_callback brokenFetch dashState0).vaccine_cases_df =
        dashState0.vaccine_cases_df ∧
    (api_button_callback brokenFetch dashState0).apibutton = failureButton := by
  refine ⟨?_, by decide, by decide⟩
  decide

/-- C5 (amended): a refresh cycle is atomic over fetch failures and over
first-wrangle failures (tables untouched, failure indicator set), and a fully
successful cycle replaces both tables; but when the first wrangle succeeds
and the second fails, the hospital table alone is replaced while the failure
indicator is set — a half-updated state the code can reach. -/
theorem claim5_refresh_cases (fetched : Except Unit (List Entry)) (s : DashState) :
    (∀ u, fetched = .error u →
      api_button_callback fetched s = { s with apibutton := failureButton }) ∧
    (∀ apidata err, fetched = .ok apidata →
      wrangle_data apidata hv_columns = .error err →
      api_button_callback fetched s = { s with apibutton := failureButton }) ∧
    (∀ apidata t1 t2, fetched = .ok apidata →
      wrangle_data apidata hv_columns = .ok t1 →
      wrangle_data apidata vc_columns = .ok t2 →
      api_button_callback fetched s = ⟨t1, t2, successButton⟩) ∧
    (∀ apidata t1 err, fetched = .ok apidata →
      wrangle_data apidata hv_columns = .ok t1 →
      wrangle_data apidata vc_columns = .error err →
      api_button_callback fetched s =
        { s with hospital_ventilator_df := t1, apibutton := failureButton }) := by
  refine ⟨?_, ?_, ?_, ?_⟩
  · intro u hf; subst hf; rfl
  · intro apidata err hf h1; subst hf; simp [api_button_callback, h1]
  · intro apidata t1 t2 hf h1 h2; subst hf; simp [api_button_callback, h1, h2]
  · intro apidata t1 err hf h1 h2; subst hf; simp [api_button_callback, h1, h2]

/-- C5 witness: the half-update case of the amended claim, instantiated on
`brokenFetch` over `dashState0`. -/
theorem claim5_witness :
    api_button_callback brokenFetch dashState0 =
      { dashState0 with hospital_ventilator_df := brokenHospitalDf,
                        apibutton := failureButton } :=
  (claim5_refresh_cases brokenFetch dashState0).2.2.2
    _ brokenHospitalDf .keyError rfl (by decide) (by decide)

/-- C6 counterexample: a record that does not contain requested column 'A'
makes `wrangle_data` fail with a KeyError instead of skipping the
(record, column) pair and returning a table. -/
theorem claim6_counterexample :
    wrangle_data [⟨"2021-01-01", []⟩] ["A"] = .error .keyError := by decide

/-! ## Position and cell lemmas -/

theorem findIdxOpt_getElem {α : Type} [BEq α] [LawfulBEq α] {l : List α} {d : α} {i : Nat}
    (h : l.findIdx? (· == d) = some i) : l[i]? = some d := by
  rw [List.findIdx?_eq_some_iff_findIdx_eq] at h
  obtain ⟨hlt, hidx⟩ := h
  cases hx : l[i]? with
  | none => exact absurd (List.getElem?_eq_none_iff.mp hx) (by omega)
  | some x =>
    have harg : l[List.findIdx (fun y => y == d) l]? = some x := by rw [hidx]; exact hx
    have hbeq : (x == d) = true :=
      @List.findIdx_of_getElem?_eq_some _ (fun y => y == d) x l harg
    exact congrArg some (eq_of_beq hbeq)

theorem findIdxOpt_lt {α : Type} [BEq α] {l : List α} {p : α → Bool} {i : Nat}
    (h : l.findIdx? p = some i) : i < l.length :=
  (List.findIdx?_eq_some_iff_findIdx_eq.mp h).1

theorem findIdxOpt_of_mem {α : Type} [BEq α] [LawfulBEq α] {l : List α} {d : α}
    (h : d ∈ l) : ∃ i, l.findIdx? (· == d) = some i := by
  have hsome : (l.findIdx? (· == d)).isSome := by
    rw [List.findIdx?_isSome, List.any_eq_true]
    exact ⟨d, h, beq_self_eq_true d⟩
  exact Option.isSome_iff_exists.mp hsome

theorem rowPos_getElem {df : DataFrame} {d : Nat} {ri : Nat} (h : rowPos df d = some ri) :
    df.index[ri]? = some d := findIdxOpt_getElem h

theorem colPos_getElem {df : DataFrame} {c : String} {ci : Nat} (h : colPos df c = some ci) :
    df.columns[ci]? = some c := findIdxOpt_getElem h

theorem rowPos_injlbl {df : DataFrame} {d d' : Nat} {ri ri' : Nat} (hne : d ≠ d')
    (h : rowPos df d = some ri) (h' : rowPos df d' = some ri') : ri ≠ ri' := by
  intro he
  subst he
  exact hne (Option.some.inj ((rowPos_getElem h).symm.trans (rowPos_getElem h')))

theorem colPos_injlbl {df : DataFrame} {c c' : String} {ci ci' : Nat} (hne : c ≠ c')
    (h : colPos df c = some ci) (h' : colPos df c' = some ci') : ci ≠ ci' := by
  intro he
  subst he
  exact hne (Option.some.inj ((colPos_getElem h).symm.trans (colPos_getElem h')))

theorem setCell_index (df : DataFrame) (ri ci : Nat) (v : Option ℚ) :
    (setCell df ri ci v).index = df.index := rfl

theorem setCell_columns (df : DataFrame) (ri ci : Nat) (v : Option ℚ) :
    (setCell df ri ci v).columns = df.columns := rfl

theorem rowPos_setCell (df : DataFrame) (ri ci : Nat) (v : Option ℚ) (d : Nat) :
    rowPos (setCell df ri ci v) d = rowPos df d := rfl

theorem colPos_setCell (df : DataFrame) (ri ci : Nat) (v : Option ℚ) (c : String) :
    colPos (setCell df ri ci v) c = colPos df c := rfl

theorem getD_set_self {α : Type} {l : List α} {i : Nat} {a dflt : α} (h : i < l.length) :
    (l.set i a).getD i dflt = a := by
  rw [List.getD_eq_getElem?_getD, List.getElem?_set_self h]
  rfl

theorem getD_set_ne {α : Type} {l : List α} {i j : Nat} {a dflt : α} (h : i ≠ j) :
    (l.set i a).getD j dflt = l.getD j dflt := by
  rw [List.getD_eq_getElem?_getD, List.getElem?_set_ne h, ← List.getD_eq_getElem?_getD]

theorem cellVal_setCell_self {df : DataFrame} {d : Nat} {c : String} {ri ci : Nat}
    (v : Option ℚ) (hri : rowPos df d = some ri) (hci : colPos df c = some ci)
    (hrow : ri < df.cells.length) (hcol : ci < (df.cells.getD ri []).length) :
    cellVal (setCell df ri ci v) d c = v := by
  unfold cellVal
  rw [rowPos_setCell, colPos_setCell, hri, hci]
  show ((df.cells.set ri ((df.cells.getD ri []).set ci v)).getD ri []).getD ci none = v
  rw [getD_set_self hrow, getD_set_self hcol]

theorem cellVal_setCell_other {df : DataFrame} {d : Nat} {c : String} {ri ci : Nat}
    (v : Option ℚ) (hpos : ∀ ri' ci', rowPos df d = some ri' → colPos df c = some ci' →
      ri ≠ ri' ∨ ci ≠ ci') :
    cellVal (setCell df ri ci v) d c = cellVal df d c := by
  unfold cellVal
  rw [rowPos_setCell, colPos_setCell]
  cases hri' : rowPos df d with
  | none => rfl
  | some ri' =>
    cases hci' : colPos df c with
    | none => rfl
    | some ci' =>
      show ((df.cells.set ri ((df.cells.getD ri []).set ci v)).getD ri' []).getD ci' none =
        (df.cells.getD ri' []).getD ci' none
      rcases hpos ri' ci' hri' hci' with hne | hne
      · rw [getD_set_ne hne]
      · by_cases hr : ri = ri'
        · subst hr
          by_cases hlt : ri < df.cells.length
          · rw [getD_set_self hlt, getD_set_ne hne]
          · rw [List.set_eq_of_length_le (by omega)]
        · rw [getD_set_ne hr]

theorem cellVal_pos {df : DataFrame} {d : Nat} {c : String} {ri ci : Nat}
    (hri : rowPos df d = some ri) (hci : colPos df c = some ci) :
    cellVal df d c = (df.cells.getD ri []).getD ci none := by
  unfold cellVal
  rw [hri, hci]

theorem set_dataframe_value_shape {df df' : DataFrame} {e : Entry} {c : String}
    (h : set_dataframe_value df e c = .ok df') (hs : DFShape df) : DFShape df' := by
  unfold set_dataframe_value at h
  split at h
  · cases h
  next dt hdt =>
    split at h
    next ri ci hri hci =>
      split at h
      · split at h
        · cases h
        next v hv =>
          cases h
          obtain ⟨hlen, hrows⟩ := hs
          have hribound : ri < df.cells.length := by
            have := findIdxOpt_lt hri
            omega
          constructor
          · simpa [setCell] using hlen
          · intro row hrow
            simp only [setCell] at hrow
            rcases List.mem_or_eq_of_mem_set hrow with hmem | heq
            · exact hrows row hmem
            · subst heq
              rw [List.length_set]
              have hgetd : df.cells.getD ri [] = df.cells[ri] :=
                List.getD_eq_getElem df.cells [] hribound
              rw [hgetd]
              exact hrows _ (List.getElem_mem hribound)
      · cases h; exact hs
    · cases h

theorem set_dataframe_value_mono {df df' : DataFrame} {e : Entry} {col : String}
    {d : Nat} {c : String} {x : ℚ}
    (h : set_dataframe_value df e col = .ok df') (hv : cellVal df d c = some x) :
    cellVal df' d c = some x := by
  unfold set_dataframe_value at h
  split at h
  · cases h
  next dt hdt =>
    split at h
    next ri ci hri hci =>
      split at h
      next hnone =>
        split at h
        · cases h
        next v hval =>
          cases h
          rw [← hv]
          apply cellVal_setCell_other
          intro ri' ci' hri' hci'
          by_contra hcon
          push_neg at hcon
          obtain ⟨h1, h2⟩ := hcon
          subst h1
          subst h2
          rw [cellVal_pos hri' hci'] at hv
          rw [hv] at hnone
          simp at hnone
      next => cases h; exact hv
    · cases h

theorem recOrd_eq {e : Entry} {dt : Date} (hdt : parse_date e.date = some dt) :
    recOrd e = some (toOrdinal dt) := by
  unfold recOrd
  rw [hdt]
  rfl

theorem set_dataframe_value_other {df df' : DataFrame} {e : Entry} {col : String}
    {d : Nat} {c : String}
    (h : set_dataframe_value df e col = .ok df') (hor : col ≠ c ∨ recOrd e ≠ some d) :
    cellVal df' d c = cellVal df d c := by
  unfold set_dataframe_value at h
  split at h
  · cases h
  next dt hdt =>
    split at h
    next ri ci hri hci =>
      split at h
      · split at h
        · cases h
        next v hval =>
          cases h
          apply cellVal_setCell_other
          intro ri' ci' hri' hci'
          rcases hor with hcol | hrec
          · exact Or.inr (colPos_injlbl hcol hci hci')
          · have hne : toOrdinal dt ≠ d := by
              intro he
              exact hrec (he ▸ recOrd_eq hdt)
            exact Or.inl (rowPos_injlbl hne hri hri')
      · cases h; rfl
    · cases h

theorem set_dataframe_value_write {df df' : DataFrame} {e : Entry} {c : String} {d : Nat}
    (h : set_dataframe_value df e c = .ok df') (hd : recOrd e = some d)
    (hnone : cellVal df d c = none) (hs : DFShape df) :
    ∃ v, e.fields.lookup c = some v ∧ cellVal df' d c = some (v.getD 0) := by
  unfold set_dataframe_value at h
  split at h
  next hp => rw [recOrd, hp] at hd; cases hd
  next dt hdt =>
    have hdo : toOrdinal dt = d := by
      have := recOrd_eq hdt
      rw [this] at hd
      exact Option.some.inj hd
    subst hdo
    split at h
    next ri ci hri hci =>
      rw [cellVal_pos hri hci] at hnone
      split at h
      next hisnone =>
        split at h
        · cases h
        next v hval =>
          cases h
          refine ⟨v, hval, ?_⟩
          have hribound : ri < df.cells.length := by
            have h1 := findIdxOpt_lt hri
            have h2 := hs.1
            omega
          have hcibound : ci < (df.cells.getD ri []).length := by
            rw [List.getD_eq_getElem df.cells [] hribound]
            have hrow := hs.2 _ (List.getElem_mem hribound)
            have := findIdxOpt_lt hci
            omega
          exact cellVal_setCell_self _ hri hci hribound hcibound
      next hisnone => rw [hnone] at hisnone; simp at hisnone
    · cases h

theorem set_dataframe_value_valueError {df : DataFrame} {e : Entry} {c : String}
    (hp : parse_date e.date = none) : set_dataframe_value df e c = .error .valueError := by
  unfold set_dataframe_value
  rw [hp]

theorem set_dataframe_value_err_of_parse {df : DataFrame} {e : Entry} {c : String}
    {dt : Date} {err : PyError} (hdt : parse_date e.date = some dt)
    (h : set_dataframe_value df e c = .error err) : err = .keyError := by
  simp only [set_dataframe_value, hdt] at h
  split at h
  next ri ci hri hci =>
    split at h
    · split at h
      · cases h; rfl
      · cases h
    · cases h
  · cases h; rfl

theorem set_dataframe_value_ok_of {df : DataFrame} {e : Entry} {c : String} {dt : Date}
    {ri ci : Nat} (hdt : parse_date e.date = some dt)
    (hri : rowPos df (toOrdinal dt) = some ri) (hci : colPos df c = some ci)
    (hlook : (e.fields.lookup c).isSome) :
    ∃ df', set_dataframe_value df e c = .ok df' := by
  simp only [set_dataframe_value, hdt, hri, hci]
  split
  · cases hval : e.fields.lookup c with
    | none => rw [hval] at hlook; simp at hlook
    | some v => exact ⟨_, rfl⟩
  · exact ⟨df, rfl⟩

theorem set_dataframe_value_keyError_pos {df : DataFrame} {e : Entry} {c : String}
    {dt : Date} {ri ci : Nat} (hdt : parse_date e.date = some dt)
    (hri : rowPos df (toOrdinal dt) = some ri) (hci : colPos df c = some ci)
    (hnone : (df.cells.getD ri []).getD ci none = none)
    (hlook : e.fields.lookup c = none) :
    set_dataframe_value df e c = .error .keyError := by
  simp only [set_dataframe_value, hdt, hri, hci]
  rw [hnone, hlook]
  rfl

/-! ## Lemmas about filling one entry across the requested columns -/

theorem fillEntry_nil (df : DataFrame) (e : Entry) : fillEntry [] df e = .ok df := rfl

theorem fillEntry_cons (col : String) (rest : List String) (df : DataFrame) (e : Entry) :
    fillEntry (col :: rest) df e =
      set_dataframe_value df e col >>= fun df1 => fillEntry rest df1 e := by
  unfold fillEntry
  rw [List.foldlM_cons]

theorem rowPos_congr {df df' : DataFrame} (h : df'.index = df.index) (d : Nat) :
    rowPos df' d = rowPos df d := by
  unfold rowPos
  rw [h]

theorem colPos_congr {df df' : DataFrame} (h : df'.columns = df.columns) (c : String) :
    colPos df' c = colPos df c := by
  unfold colPos
  rw [h]

theorem fillEntry_shape {cols : List String} {df df' : DataFrame} {e : Entry}
    (h : fillEntry cols df e = .ok df') (hs : DFShape df) : DFShape df' :=
  foldlM_exc_induct _ DFShape
    (fun _ _ _ hb hstep => set_dataframe_value_shape hstep hb) cols df df' hs h

theorem fillEntry_mono {cols : List String} {df df' : DataFrame} {e : Entry}
    {d : Nat} {c : String} {x : ℚ}
    (h : fillEntry cols df e = .ok df') (hv : cellVal df d c = some x) :
    cellVal df' d c = some x :=
  foldlM_exc_induct _ (fun dfx => cellVal dfx d c = some x)
    (fun _ _ _ hb hstep => set_dataframe_value_mono hstep hb) cols df df' hv h

theorem fillEntry_otherdate {cols : List String} {df df' : DataFrame} {e : Entry}
    {d : Nat} {c : String} (h : fillEntry cols df e = .ok df') (hrec : recOrd e ≠ some d) :
    cellVal df' d c = cellVal df d c :=
  foldlM_exc_induct _ (fun dfx => cellVal dfx d c = cellVal df d c)
    (fun _ _ _ hb hstep => ((set_dataframe_value_other hstep (Or.inr hrec)).trans hb))
    cols df df' rfl h

theorem fillEntry_write {e : Entry} {d : Nat} {c : String} {v : RawValue} :
    ∀ {cols : List String} {df df' : DataFrame},
    fillEntry cols df e = .ok df' → recOrd e = some d → c ∈ cols →
    cellVal df d c = none → e.fields.lookup c = some v → DFShape df →
    cellVal df' d c = some (v.getD 0) := by
  intro cols
  induction cols with
  | nil => intro df df' _ _ hmem; cases hmem
  | cons col rest ih =>
    intro df df' h hd hmem hnone hv hs
    rw [fillEntry_cons] at h
    cases hstep : set_dataframe_value df e col with
    | error err => rw [hstep, exc_bind_error] at h; cases h
    | ok df1 =>
      rw [hstep, exc_bind_ok] at h
      by_cases hcc : col = c
      · subst hcc
        obtain ⟨v', hv', hcell⟩ := set_dataframe_value_write hstep hd hnone hs
        rw [hv] at hv'
        cases hv'
        exact fillEntry_mono h hcell
      · have hnone1 : cellVal df1 d c = none :=
          (set_dataframe_value_other hstep (Or.inl hcc)).trans hnone
        have hmem1 : c ∈ rest := by
          cases hmem with
          | head => exact absurd rfl hcc
          | tail _ hm => exact hm
        exact ih h hd hmem1 hnone1 hv (set_dataframe_value_shape hstep hs)

theorem set_dataframe_value_not_ok_missing {df : DataFrame} {e : Entry} {c : String}
    {d : Nat} (hd : recOrd e = some d) (hnone : cellVal df d c = none)
    (hlook : e.fields.lookup c = none) :
    ∀ df1, set_dataframe_value df e c ≠ .ok df1 := by
  intro df1 h
  unfold set_dataframe_value at h
  split at h
  next hp => rw [recOrd, hp] at hd; cases hd
  next dt hdt =>
    have hdo : toOrdinal dt = d := by
      have := recOrd_eq hdt
      rw [this] at hd
      exact Option.some.inj hd
    subst hdo
    split at h
    next ri ci hri hci =>
      rw [cellVal_pos hri hci] at hnone
      rw [hnone] at h
      simp only [Option.isNone_none, if_pos] at h
      rw [hlook] at h
      cases h
    · cases h

theorem fillEntry_not_ok {e : Entry} {d : Nat} {c : String} :
    ∀ {cols : List String} {df df' : DataFrame},
    recOrd e = some d → c ∈ cols → cellVal df d c = none → e.fields.lookup c = none →
    fillEntry cols df e ≠ .ok df' := by
  intro cols
  induction cols with
  | nil => intro df df' _ hmem; cases hmem
  | cons col rest ih =>
    intro df df' hd hmem hnone hlook h
    rw [fillEntry_cons] at h
    cases hstep : set_dataframe_value df e col with
    | error err => rw [hstep, exc_bind_error] at h; cases h
    | ok df1 =>
      rw [hstep, exc_bind_ok] at h
      by_cases hcc : col = c
      · subst hcc
        exact set_dataframe_value_not_ok_missing hd hnone hlook df1 hstep
      · have hnone1 : cellVal df1 d c = none :=
          (set_dataframe_value_other hstep (Or.inl hcc)).trans hnone
        have hmem1 : c ∈ rest := by
          cases hmem with
          | head => exact absurd rfl hcc
          | tail _ hm => exact hm
        exact ih hd hmem1 hnone1 hlook h

theorem fillEntry_ok_of {e : Entry} {dt : Date} :
    ∀ {cols : List String} {df : DataFrame},
    parse_date e.date = some dt → (rowPos df (toOrdinal dt)).isSome →
    (∀ col ∈ cols, (colPos df col).isSome ∧ (e.fields.lookup col).isSome) →
    ∃ df', fillEntry cols df e = .ok df' ∧ df'.index = df.index ∧ df'.columns = df.columns := by
  intro cols
  induction cols with
  | nil => intro df _ _ _; exact ⟨df, rfl, rfl, rfl⟩
  | cons col rest ih =>
    intro df hdt hrow hcols
    obtain ⟨hci, hlook⟩ := hcols col (List.mem_cons_self col rest)
    obtain ⟨ri, hri⟩ := Option.isSome_iff_exists.mp hrow
    obtain ⟨ci, hcival⟩ := Option.isSome_iff_exists.mp hci
    obtain ⟨df1, hstep⟩ := set_dataframe_value_ok_of hdt hri hcival hlook
    obtain ⟨hidx, hcolsidx⟩ := set_dataframe_value_ok_inv hstep
    obtain ⟨df', hrest, hidx', hcols'⟩ := ih hdt
      (by rw [rowPos_congr hidx]; rw [hri]; rfl)
      (fun c2 hc2 => by
        rw [colPos_congr hcolsidx]
        exact hcols c2 (List.mem_cons_of_mem col hc2))
    · refine ⟨df', ?_, hidx'.trans hidx, hcols'.trans hcolsidx⟩
      rw [fillEntry_cons, hstep, exc_bind_ok]
      exact hrest
    
theorem fillEntry_valueError {cols : List String} {df : DataFrame} {e : Entry}
    (hp : parse_date e.date = none) (hne : cols ≠ []) :
    fillEntry cols df e = .error .valueError := by
  cases cols with
  | nil => exact absurd rfl hne
  | cons col rest =>
    rw [fillEntry_cons, set_dataframe_value_valueError hp, exc_bind_error]

theorem fillEntry_err_of_parse {cols : List String} {df : DataFrame} {e : Entry}
    {dt : Date} {err : PyError} (hdt : parse_date e.date = some dt)
    (h : fillEntry cols df e = .error err) : err = .keyError :=
  foldlM_exc_error _ (fun x => x = .keyError)
    (fun _ _ _ hstep => set_dataframe_value_err_of_parse hdt hstep) cols df err h

/-! ## Lemmas about the loop over all records -/

/-- The raw value carried for column `c` by the first record in input order
whose date has ordinal `d` and which contains column `c`. -/
def firstCarrier (records : List Entry) (d : Nat) (c : String) : Option RawValue :=
  (records.find? (fun e => recOrd e == some d && (e.fields.lookup c).isSome)).bind
    (fun e => e.fields.lookup c)

theorem wrangleLoop_shape {cols : List String} {records : List Entry} {df df' : DataFrame}
    (h : records.foldlM (fillEntry cols) df = .ok df') (hs : DFShape df) : DFShape df' :=
  foldlM_exc_induct _ DFShape (fun _ _ _ hb hstep => fillEntry_shape hstep hb)
    records df df' hs h

theorem wrangleLoop_mono {cols : List String} {records : List Entry} {df df' : DataFrame}
    {d : Nat} {c : String} {x : ℚ}
    (h : records.foldlM (fillEntry cols) df = .ok df') (hv : cellVal df d c = some x) :
    cellVal df' d c = some x :=
  foldlM_exc_induct _ (fun dfx => cellVal dfx d c = some x)
    (fun _ _ _ hb hstep => fillEntry_mono hstep hb) records df df' hv h

/-- Core characterization of the filling loop: starting from a frame whose
(d, c) cell is unset, the loop leaves that cell equal to the value of the
first record carrying (d, c) — zero substituted for the null marker — or
unset when no record carries it. -/
theorem wrangleLoop_cell {cols : List String} {d : Nat} {c : String} :
    ∀ {records : List Entry} {df df' : DataFrame},
    records.foldlM (fillEntry cols) df = .ok df' → cellVal df d c = none → c ∈ cols →
    DFShape df →
    cellVal df' d c = (firstCarrier records d c).map (fun v => v.getD 0) := by
  intro records
  induction records with
  | nil =>
    intro df df' h hnone _ _
    simp only [List.foldlM_nil] at h
    cases h
    simp [firstCarrier, hnone]
  | cons e rest ih =>
    intro df df' h hnone hmem hs
    rw [List.foldlM_cons] at h
    cases hstep : fillEntry cols df e with
    | error err => rw [hstep, exc_bind_error] at h; cases h
    | ok df1 =>
      rw [hstep, exc_bind_ok] at h
      cases hrec : recOrd e with
      | none =>
        have hp : parse_date e.date = none := by
          unfold recOrd at hrec
          cases hpd : parse_date e.date with
          | none => rfl
          | some dt => rw [hpd] at hrec; cases hrec
        have hcne : cols ≠ [] := by
          intro hc
          rw [hc] at hmem
          cases hmem
        rw [fillEntry_valueError hp hcne] at hstep
        cases hstep
      | some d' =>
        by_cases hdd : d' = d
        · subst hdd
          cases hlook : e.fields.lookup c with
          | none => exact absurd hstep (fillEntry_not_ok hrec hmem hnone hlook)
          | some v =>
            have hcell1 : cellVal df1 d' c = some (v.getD 0) :=
              fillEntry_write hstep hrec hmem hnone hlook hs
            have hfc : firstCarrier (e :: rest) d' c = some v := by
              unfold firstCarrier
              rw [List.find?_cons_of_pos]
              · simp [hlook]
              · simp [hrec, hlook]
            rw [hfc]
            exact wrangleLoop_mono h hcell1
        · have hcell1 : cellVal df1 d c = cellVal df d c :=
            fillEntry_otherdate hstep (by rw [hrec]; intro hx; exact hdd (Option.some.inj hx))
          have hfc : firstCarrier (e :: rest) d c = firstCarrier rest d c := by
            unfold firstCarrier
            rw [List.find?_cons_of_neg]
            simp [hrec, hdd]
          rw [hfc]
          exact ih h (hcell1.trans hnone) hmem (fillEntry_shape hstep hs)

/-! ## Lemmas about initialization, fillna, and the full wrangle -/

theorem initialize_ok_elim {r : List Entry} {cols : List String} {df₀ : DataFrame}
    (h : initialize_dataframe r cols = .ok df₀) :
    ∃ a b, df₀.index = dateRange (toOrdinal a) (toOrdinal b) ∧ df₀.columns = cols ∧
      df₀.cells = List.replicate df₀.index.length (List.replicate cols.length none) ∧
      ∃ d0 rest, (r.map (·.date)).insertionSort strLe = d0 :: rest ∧
        parse_date d0 = some a ∧
        parse_date ((d0 :: rest).getLast (List.cons_ne_nil d0 rest)) = some b := by
  simp only [initialize_dataframe] at h
  split at h
  · cases h
  next d0 rest hsort =>
    split at h
    next a b ha hb =>
      cases h
      exact ⟨a, b, rfl, rfl, rfl, d0, rest, hsort, ha, hb⟩
    · cases h

theorem getD_replicate {α : Type} (n : Nat) (a : α) (i : Nat) (dflt : α) :
    (List.replicate n a).getD i dflt = if i < n then a else dflt := by
  rw [List.getD_eq_getElem?_getD, List.getElem?_replicate]
  split <;> rfl

theorem cellVal_replicate_cells {df : DataFrame}
    (h : df.cells = List.replicate df.index.length (List.replicate df.columns.length none))
    (d : Nat) (c : String) : cellVal df d c = none := by
  unfold cellVal
  split
  next ri ci hri hci =>
    rw [h, getD_replicate]
    split
    · rw [getD_replicate]
      split <;> rfl
    · rfl
  · rfl

theorem initialize_shape {r : List Entry} {cols : List String} {df₀ : DataFrame}
    (h : initialize_dataframe r cols = .ok df₀) : DFShape df₀ := by
  obtain ⟨a, b, hidx, hcols, hcells, -⟩ := initialize_ok_elim h
  constructor
  · rw [hcells, List.length_replicate]
  · intro row hrow
    rw [hcells] at hrow
    rw [List.eq_of_mem_replicate hrow, List.length_replicate, hcols]

theorem initialize_cells_none {r : List Entry} {cols : List String} {df₀ : DataFrame}
    (h : initialize_dataframe r cols = .ok df₀) (d : Nat) (c : String) :
    cellVal df₀ d c = none := by
  obtain ⟨a, b, hidx, hcols, hcells, -⟩ := initialize_ok_elim h
  exact cellVal_replicate_cells (by rw [hcells, hcols]) d c

theorem initialize_columns {r : List Entry} {cols : List String} {df₀ : DataFrame}
    (h : initialize_dataframe r cols = .ok df₀) : df₀.columns = cols := by
  obtain ⟨a, b, -, hcols, -, -⟩ := initialize_ok_elim h
  exact hcols

theorem cellVal_fillna {df : DataFrame} {d : Nat} {c : String} {ri ci : Nat}
    (hri : rowPos df d = some ri) (hci : colPos df c = some ci) (hs : DFShape df) :
    cellVal (fillna df) d c = some ((cellVal df d c).getD 0) := by
  have hrib : ri < df.cells.length := by
    have h1 := findIdxOpt_lt hri
    have h2 := hs.1
    omega
  have hrowget : df.cells.getD ri [] = df.cells[ri] := List.getD_eq_getElem df.cells [] hrib
  have hcib : ci < df.cells[ri].length := by
    have h1 := hs.2 _ (List.getElem_mem hrib)
    have h2 := findIdxOpt_lt hci
    omega
  have hfri : rowPos (fillna df) d = some ri := hri
  have hfci : colPos (fillna df) c = some ci := hci
  have houter : (df.cells.map (fun row => List.map (fun v => some (v.getD 0)) row)).getD ri []
      = List.map (fun v => some (v.getD 0)) df.cells[ri] := by
    rw [List.getD_eq_getElem?_getD, List.getElem?_map, List.getElem?_eq_getElem hrib]
    rfl
  have hinner : (List.map (fun v => some (v.getD 0)) df.cells[ri]).getD ci none =
      some ((df.cells[ri].getD ci none).getD 0) := by
    rw [List.getD_eq_getElem?_getD, List.getElem?_map, List.getElem?_eq_getElem hcib]
    rw [List.getD_eq_getElem df.cells[ri] none hcib]
    rfl
  rw [cellVal_pos hfri hfci, cellVal_pos hri hci]
  show ((df.cells.map (fun row => List.map (fun v => some (v.getD 0)) row)).getD ri []).getD ci
      none = some (((df.cells.getD ri []).getD ci none).getD 0)
  rw [houter, hinner, hrowget]

theorem wrangle_ok_elim {r : List Entry} {cols : List String} {df : DataFrame}
    (h : wrangle_data r cols = .ok df) :
    ∃ df₀ df₁, initialize_dataframe r cols = .ok df₀ ∧
      r.foldlM (fillEntry cols) df₀ = .ok df₁ ∧ df = fillna df₁ := by
  unfold wrangle_data at h
  cases hinit : initialize_dataframe r cols with
  | error e => rw [hinit, exc_bind_error] at h; cases h
  | ok df₀ =>
    rw [hinit, exc_bind_ok] at h
    cases hloop : r.foldlM (fillEntry cols) df₀ with
    | error e => rw [hloop, exc_bind_error] at h; cases h
    | ok df₁ =>
      rw [hloop, exc_bind_ok] at h
      exact ⟨df₀, df₁, rfl, hloop, (Except.ok.inj h).symm⟩

/-- C2: whenever `wrangle_data` returns a table, every cell of the table at a
row label of its index and a column label of its columns holds a numeric
value (never NaN); and the spec's null-marker scenario: a record with the
'no data' marker for a requested column yields the cell value 0. -/
theorem claim2_cells_always_numeric :
    (∀ (records : List Entry) (cols : List String) (df : DataFrame) (d : Nat) (c : String),
      wrangle_data records cols = .ok df → d ∈ df.index → c ∈ df.columns →
      (cellVal df d c).isSome = true) ∧
    wrangle_data [⟨"2021-02-01", [("A", none)]⟩] ["A"] =
      .ok ⟨[737822], ["A"], [[some 0]]⟩ := by
  constructor
  · intro records cols df d c hok hd hc
    obtain ⟨df₀, df₁, hinit, hloop, hdf⟩ := wrangle_ok_elim hok
    subst hdf
    have hshape₁ : DFShape df₁ := wrangleLoop_shape hloop (initialize_shape hinit)
    have hd1 : d ∈ df₁.index := hd
    have hc1 : c ∈ df₁.columns := hc
    obtain ⟨ri, hri⟩ := findIdxOpt_of_mem hd1
    obtain ⟨ci, hci⟩ := findIdxOpt_of_mem hc1
    rw [cellVal_fillna hri hci hshape₁]
    rfl
  · decide

/-- C2 witness: the null-marker record, evaluated through the first part of
the theorem at its own output table. -/
theorem claim2_witness :
    (cellVal ⟨[737822], ["A"], [[some 0]]⟩ 737822 "A").isSome = true :=
  claim2_cells_always_numeric.1 [⟨"2021-02-01", [("A", none)]⟩] ["A"]
    ⟨[737822], ["A"], [[some 0]]⟩ 737822 "A" (by decide) (by decide) (by decide)

/-- C4: a date in the output index for which no input record with that date
carries the requested column gets the cell value 0; and the spec's scenario:
records on 2021-01-01 (A=5) and 2021-01-03 (A=7) produce exactly three rows
with A = 5, 0, 7. -/
theorem claim4_missing_dates_zero :
    (∀ (records : List Entry) (cols : List String) (df : DataFrame) (d : Nat) (c : String),
      wrangle_data records cols = .ok df → d ∈ df.index → c ∈ cols →
      (∀ e ∈ records, (recOrd e == some d && (e.fields.lookup c).isSome) = false) →
      cellVal df d c = some 0) ∧
    wrangle_data [⟨"2021-01-01", [("A", some 5)]⟩, ⟨"2021-01-03", [("A", some 7)]⟩] ["A"] =
      .ok ⟨[737791, 737792, 737793], ["A"], [[some 5], [some 0], [some 7]]⟩ := by
  constructor
  · intro records cols df d c hok hd hc hnocarry
    obtain ⟨df₀, df₁, hinit, hloop, hdf⟩ := wrangle_ok_elim hok
    subst hdf
    have hshape₀ : DFShape df₀ := initialize_shape hinit
    have hshape₁ : DFShape df₁ := wrangleLoop_shape hloop hshape₀
    have hnone₀ : cellVal df₀ d c = none := initialize_cells_none hinit d c
    have hfc : firstCarrier records d c = none := by
      unfold firstCarrier
      rw [List.find?_eq_none.mpr (fun e he => by rw [hnocarry e he]; exact Bool.false_ne_true)]
      rfl
    have hcell₁ : cellVal df₁ d c = none := by
      rw [wrangleLoop_cell hloop hnone₀ hc hshape₀, hfc]
      rfl
    have hd1 : d ∈ df₁.index := hd
    have hc1 : c ∈ df₁.columns := by
      have hidxcols := wrangleLoop_ok_inv hloop
      rw [hidxcols.2, initialize_columns hinit]
      exact hc
    obtain ⟨ri, hri⟩ := findIdxOpt_of_mem hd1
    obtain ⟨ci, hci⟩ := findIdxOpt_of_mem hc1
    rw [cellVal_fillna hri hci hshape₁, hcell₁]
    rfl
  · decide

/-- C4 witness: the gap date 2021-01-02 (ordinal 737792) of the scenario
input, whose cell is zero-filled. -/
theorem claim4_witness :
    cellVal ⟨[737791, 737792, 737793], ["A"], [[some 5], [some 0], [some 7]]⟩ 737792 "A" =
      some 0 :=
  claim4_missing_dates_zero.1
    [⟨"2021-01-01", [("A", some 5)]⟩, ⟨"2021-01-03", [("A", some 7)]⟩] ["A"]
    ⟨[737791, 737792, 737793], ["A"], [[some 5], [some 0], [some 7]]⟩ 737792 "A"
    (by decide) (by decide) (by decide) (by decide)

/-! ## Lemmas for the duplicate-date policy -/

/-- Replace the raw value stored under key `c` in an association list
(Python dict assignment on an existing key). -/
def setFields : List (String × RawValue) → String → RawValue → List (String × RawValue)
  | [], _, _ => []
  | (k, b) :: t, c, w => if k == c then (k, w) :: t else (k, b) :: setFields t c w

/-- Replace the raw value of field `c` in a record (used to show the output
does not depend on a duplicate record's value). -/
def setField (e : Entry) (c : String) (w : RawValue) : Entry :=
  ⟨e.date, setFields e.fields c w⟩

theorem setField_date (e : Entry) (c : String) (w : RawValue) :
    (setField e c w).date = e.date := rfl

theorem setField_lookup_ne {e : Entry} {c col : String} (w : RawValue) (h : col ≠ c) :
    (setField e c w).fields.lookup col = e.fields.lookup col := by
  show (setFields e.fields c w).lookup col = e.fields.lookup col
  induction e.fields with
  | nil => rfl
  | cons p t ih =>
    rcases p with ⟨k, b⟩
    by_cases hkc : k = c
    · subst hkc
      have hkcol : (col == k) = false := by
        rw [beq_eq_false_iff_ne]
        exact h
      simp only [setFields, beq_self_eq_true, if_true]
      simp only [List.lookup, hkcol]
    · have hkc2 : (k == c) = false := by
        rw [beq_eq_false_iff_ne]
        exact hkc
      simp only [setFields, hkc2, Bool.false_eq_true, if_false]
      simp only [List.lookup]
      cases col == k
      · exact ih
      · rfl

theorem recOrd_congr {e e' : Entry} (h : e.date = e'.date) : recOrd e = recOrd e' := by
  unfold recOrd parse_date
  rw [h]

theorem cellVal_isSome_pos {df : DataFrame} {d : Nat} {c : String}
    (h : (cellVal df d c).isSome = true) :
    ∃ ri ci, rowPos df d = some ri ∧ colPos df c = some ci := by
  unfold cellVal at h
  split at h
  next ri ci hri hci => exact ⟨ri, ci, hri, hci⟩
  next => cases h

theorem set_dataframe_value_skip {df : DataFrame} {e : Entry} {c : String} {d : Nat}
    (hd : recOrd e = some d) (hcell : (cellVal df d c).isSome = true) :
    set_dataframe_value df e c = .ok df := by
  obtain ⟨ri, ci, hri, hci⟩ := cellVal_isSome_pos hcell
  cases hdt : parse_date e.date with
  | none => rw [recOrd, hdt] at hd; cases hd
  | some dt =>
    have hdo : toOrdinal dt = d := by
      have := recOrd_eq hdt
      rw [this] at hd
      exact Option.some.inj hd
    rw [cellVal_pos hri hci] at hcell
    simp only [set_dataframe_value, hdt, hdo, hri, hci]
    cases hval : (df.cells.getD ri []).getD ci none with
    | none => rw [hval] at hcell; simp at hcell
    | some x => rfl

theorem set_dataframe_value_congr {df : DataFrame} {e e' : Entry} {col : String}
    (hdate : e.date = e'.date) (hlook : e.fields.lookup col = e'.fields.lookup col) :
    set_dataframe_value df e col = set_dataframe_value df e' col := by
  unfold set_dataframe_value
  rw [show parse_date e.date = parse_date e'.date by unfold parse_date; rw [hdate], hlook]

theorem fillEntry_sets {cols : List String} {df df' : DataFrame} {e : Entry} {d : Nat}
    {c : String} (h : fillEntry cols df e = .ok df') (hd : recOrd e = some d)
    (hc : c ∈ cols) (hcarry : (e.fields.lookup c).isSome = true) (hs : DFShape df) :
    (cellVal df' d c).isSome = true := by
  cases hcv : cellVal df d c with
  | some x => rw [fillEntry_mono h hcv]; rfl
  | none =>
    obtain ⟨v, hv⟩ := Option.isSome_iff_exists.mp hcarry
    rw [fillEntry_write h hd hc hcv hv hs]
    rfl

theorem wrangleLoop_sets {cols : List String} {d : Nat} {c : String} {e1 : Entry} :
    ∀ {records : List Entry} {df df' : DataFrame},
    records.foldlM (fillEntry cols) df = .ok df' → DFShape df → e1 ∈ records →
    recOrd e1 = some d → c ∈ cols → (e1.fields.lookup c).isSome = true →
    (cellVal df' d c).isSome = true := by
  intro records
  induction records with
  | nil => intro df df' _ _ hmem; cases hmem
  | cons e rest ih =>
    intro df df' h hs hmem hd hc hcarry
    rw [List.foldlM_cons] at h
    cases hstep : fillEntry cols df e with
    | error err => rw [hstep, exc_bind_error] at h; cases h
    | ok df1 =>
      rw [hstep, exc_bind_ok] at h
      cases hmem with
      | head =>
        have hset := fillEntry_sets hstep hd hc hcarry hs
        obtain ⟨x, hx⟩ := Option.isSome_iff_exists.mp hset
        rw [wrangleLoop_mono h hx]
        rfl
      | tail _ hm => exact ih h (fillEntry_shape hstep hs) hm hd hc hcarry

theorem fillEntry_indep {e e' : Entry} {d : Nat} {c : String} :
    ∀ {cols : List String} {df : DataFrame},
    (cellVal df d c).isSome = true → recOrd e = some d → e'.date = e.date →
    (∀ col, col ≠ c → e'.fields.lookup col = e.fields.lookup col) →
    fillEntry cols df e' = fillEntry cols df e := by
  intro cols
  induction cols with
  | nil => intro df _ _ _ _; rfl
  | cons col rest ih =>
    intro df hcell hd hdate hlooks
    rw [fillEntry_cons, fillEntry_cons]
    have hstep : set_dataframe_value df e' col = set_dataframe_value df e col := by
      by_cases hcc : col = c
      · subst hcc
        have hre2 : recOrd e' = some d := (recOrd_congr hdate).trans hd
        rw [set_dataframe_value_skip hre2 hcell, set_dataframe_value_skip hd hcell]
      · exact set_dataframe_value_congr hdate (hlooks col hcc)
    rw [hstep]
    cases hres : set_dataframe_value df e col with
    | error err => rfl
    | ok df1 =>
      rw [exc_bind_ok]
      have hcell1 : (cellVal df1 d c).isSome = true := by
        obtain ⟨x, hx⟩ := Option.isSome_iff_exists.mp hcell
        rw [set_dataframe_value_mono hres hx]
        rfl
      exact ih hcell1 hd hdate hlooks

theorem set_dataframe_value_ok_rowPos {df df1 : DataFrame} {e : Entry} {col : String}
    {d' : Nat} (h : set_dataframe_value df e col = .ok df1) (hd : recOrd e = some d') :
    (rowPos df d').isSome = true := by
  unfold set_dataframe_value at h
  split at h
  next hp => rw [recOrd, hp] at hd; cases hd
  next dt hdt =>
    have hdo : toOrdinal dt = d' := by
      have := recOrd_eq hdt
      rw [this] at hd
      exact Option.some.inj hd
    subst hdo
    split at h
    next ri ci hri hci => rw [hri]; rfl
    · cases h

theorem fillEntry_ok_rowPos {cols : List String} {df df1 : DataFrame} {e : Entry}
    {d' : Nat} (h : fillEntry cols df e = .ok df1) (hcne : cols ≠ [])
    (hd : recOrd e = some d') : (rowPos df d').isSome = true := by
  cases cols with
  | nil => exact absurd rfl hcne
  | cons col rest =>
    rw [fillEntry_cons] at h
    cases hstep : set_dataframe_value df e col with
    | error err => rw [hstep, exc_bind_error] at h; cases h
    | ok dfx => exact set_dataframe_value_ok_rowPos hstep hd

theorem wrangleLoop_mem_index {cols : List String} :
    ∀ {records : List Entry} {df df' : DataFrame},
    records.foldlM (fillEntry cols) df = .ok df' → cols ≠ [] →
    ∀ e ∈ records, ∀ d', recOrd e = some d' → d' ∈ df.index := by
  intro records
  induction records with
  | nil => intro df df' _ _ e hmem; cases hmem
  | cons e0 rest ih =>
    intro df df' h hcne e hmem d' hd
    rw [List.foldlM_cons] at h
    cases hstep : fillEntry cols df e0 with
    | error err => rw [hstep, exc_bind_error] at h; cases h
    | ok df1 =>
      rw [hstep, exc_bind_ok] at h
      cases hmem with
      | head =>
        obtain ⟨ri, hri⟩ := Option.isSome_iff_exists.mp (fillEntry_ok_rowPos hstep hcne hd)
        exact List.getElem?_mem (rowPos_getElem hri)
      | tail _ hm =>
        have := ih h hcne e hm d' hd
        rw [(fillEntry_ok_inv hstep).1] at this
        exact this

theorem initialize_congr {r r' : List Entry} (h : r.map (·.date) = r'.map (·.date))
    (cols : List String) :
    initialize_dataframe r cols = initialize_dataframe r' cols := by
  simp only [initialize_dataframe]
  rw [h]

/-- C3: when two records in the input share a date and both carry a requested
column, the output cell equals the value of the first carrying record in
input order (`firstCarrier`), and replacing the later record's value for that
column changes nothing at all in the result of `wrangle_data` — the later
value is silently ignored and no other cell is affected. -/
theorem claim3_first_write_wins
    (l1 l2 : List Entry) (e1 e2 : Entry) (c : String) (cols : List String)
    (v : RawValue) (df : DataFrame) (d : Nat)
    (he1 : e1 ∈ l1) (hdate : e1.date = e2.date) (hc : c ∈ cols)
    (hcarry1 : (e1.fields.lookup c).isSome = true)
    (hcarry2 : (e2.fields.lookup c).isSome = true)
    (hd : recOrd e2 = some d)
    (hok : wrangle_data (l1 ++ e2 :: l2) cols = .ok df)
    (hfw : firstCarrier (l1 ++ e2 :: l2) d c = some v) :
    cellVal df d c = some (v.getD 0) ∧
    ∀ w, wrangle_data (l1 ++ setField e2 c w :: l2) cols =
      wrangle_data (l1 ++ e2 :: l2) cols := by
  constructor
  · obtain ⟨df₀, df₁, hinit, hloop, hdf⟩ := wrangle_ok_elim hok
    subst hdf
    have hshape₀ := initialize_shape hinit
    have hshape₁ := wrangleLoop_shape hloop hshape₀
    have hnone₀ : cellVal df₀ d c = none := initialize_cells_none hinit d c
    have hcell₁ : cellVal df₁ d c = some (v.getD 0) := by
      rw [wrangleLoop_cell hloop hnone₀ hc hshape₀, hfw]
      rfl
    have hcne : cols ≠ [] := fun hx => by rw [hx] at hc; cases hc
    have hmem2 : e2 ∈ l1 ++ e2 :: l2 :=
      List.mem_append_right _ (List.mem_cons_self e2 l2)
    have hdmem : d ∈ df₁.index := by
      rw [(wrangleLoop_ok_inv hloop).1]
      exact wrangleLoop_mem_index hloop hcne e2 hmem2 d hd
    have hc1 : c ∈ df₁.columns := by
      rw [(wrangleLoop_ok_inv hloop).2, initialize_columns hinit]
      exact hc
    obtain ⟨ri, hri⟩ := findIdxOpt_of_mem hdmem
    obtain ⟨ci, hci⟩ := findIdxOpt_of_mem hc1
    rw [cellVal_fillna hri hci hshape₁, hcell₁]
    rfl
  · intro w
    have hdatesame : (l1 ++ setField e2 c w :: l2).map (·.date) =
        (l1 ++ e2 :: l2).map (·.date) := by
      simp [setField_date]
    unfold wrangle_data
    rw [initialize_congr hdatesame cols]
    cases hinit : initialize_dataframe (l1 ++ e2 :: l2) cols with
    | error err => rfl
    | ok df₀ =>
      rw [exc_bind_ok, exc_bind_ok]
      rw [List.foldlM_append, List.foldlM_append]
      cases hl1 : l1.foldlM (fillEntry cols) df₀ with
      | error err => rfl
      | ok df₁ =>
        rw [exc_bind_ok, exc_bind_ok, List.foldlM_cons, List.foldlM_cons]
        have hshape₀ := initialize_shape hinit
        have hre1 : recOrd e1 = some d := (recOrd_congr hdate).trans hd
        have hcellset : (cellVal df₁ d c).isSome = true :=
          wrangleLoop_sets hl1 hshape₀ he1 hre1 hc hcarry1
        have hfe : fillEntry cols df₁ (setField e2 c w) = fillEntry cols df₁ e2 :=
          fillEntry_indep hcellset hd (setField_date e2 c w)
            (fun col hcol => setField_lookup_ne w hcol)
        rw [hfe]

/-- C3 witness: two records on 2021-01-01 both carrying column A with values
5 and 9; the cell keeps 5 and rewriting the later record's A value to 42
leaves the whole wrangled result unchanged. -/
theorem claim3_witness :
    cellVal ⟨[737791], ["A"], [[some 5]]⟩ 737791 "A" = some ((some (5 : ℚ)).getD 0) ∧
    wrangle_data [⟨"2021-01-01", [("A", some 5)]⟩,
                  setField ⟨"2021-01-01", [("A", some 9)]⟩ "A" (some 42)] ["A"] =
      wrangle_data [⟨"2021-01-01", [("A", some 5)]⟩, ⟨"2021-01-01", [("A", some 9)]⟩]
        ["A"] := by
  have h := claim3_first_write_wins
    [⟨"2021-01-01", [("A", some 5)]⟩] [] ⟨"2021-01-01", [("A", some 5)]⟩
    ⟨"2021-01-01", [("A", some 9)]⟩ "A" ["A"] (some 5)
    ⟨[737791], ["A"], [[some 5]]⟩ 737791
    (by decide) rfl (by decide) (by decide) (by decide) (by decide) (by decide) (by decide)
  exact ⟨h.1, h.2 (some 42)⟩

/-! ## Order facts about the Python string comparison -/

theorem charListLe_refl : ∀ cs : List Char, charListLe cs cs = true := by
  intro cs
  induction cs with
  | nil => rfl
  | cons a t ih => simp [charListLe, ih]

theorem charListLe_total : ∀ as bs : List Char,
    charListLe as bs = true ∨ charListLe bs as = true := by
  intro as
  induction as with
  | nil => intro bs; exact Or.inl rfl
  | cons a t ih =>
    intro bs
    cases bs with
    | nil => exact Or.inr rfl
    | cons b bt =>
      by_cases h1 : a.toNat < b.toNat
      · exact Or.inl (by simp [charListLe, h1])
      · by_cases h2 : b.toNat < a.toNat
        · exact Or.inr (by simp [charListLe, h2])
        · rcases ih bt with h | h
          · exact Or.inl (by simp [charListLe, h1, h2, h])
          · exact Or.inr (by simp [charListLe, h1, h2, h])

theorem charListLe_trans : ∀ as bs cs : List Char,
    charListLe as bs = true → charListLe bs cs = true → charListLe as cs = true := by
  intro as
  induction as with
  | nil => intro bs cs _ _; rfl
  | cons a t ih =>
    intro bs cs h1 h2
    cases bs with
    | nil => simp [charListLe] at h1
    | cons b bt =>
      cases cs with
      | nil => simp [charListLe] at h2
      | cons c2 ct =>
        simp only [charListLe] at h1 h2 ⊢
        split_ifs at h1 h2 ⊢ <;>
          first
            | rfl
            | omega
            | exact ih bt ct h1 h2
            | cases h1
            | cases h2

instance : IsTotal String strLe := ⟨fun a b => charListLe_total a.data b.data⟩

instance : IsTrans String strLe := ⟨fun _ _ _ h1 h2 => charListLe_trans _ _ _ h1 h2⟩

theorem sorted_head_le {l : List String} {d0 : String} {rest : List String}
    (h : l.insertionSort strLe = d0 :: rest) : ∀ s ∈ l, strLe d0 s := by
  intro s hs
  have hsorted := List.sorted_insertionSort strLe l
  rw [h] at hsorted
  have hmem : s ∈ d0 :: rest := by
    rw [← h]
    exact (List.perm_insertionSort strLe l).mem_iff.mpr hs
  cases hmem with
  | head => exact charListLe_refl _
  | tail _ hm => exact List.rel_of_sorted_cons hsorted s hm

theorem sorted_le_getLast : ∀ {l : List String} (hne : l ≠ []),
    List.Sorted strLe l → ∀ s ∈ l, strLe s (l.getLast hne) := by
  intro l
  induction l with
  | nil => intro hne; exact absurd rfl hne
  | cons a t ih =>
    intro hne hsorted s hs
    cases t with
    | nil =>
      cases hs with
      | head => exact charListLe_refl _
      | tail _ hm => cases hm
    | cons b bt =>
      rw [List.getLast_cons (List.cons_ne_nil b bt)]
      cases hs with
      | head =>
        exact List.rel_of_sorted_cons hsorted _
          (List.getLast_mem (List.cons_ne_nil b bt))
      | tail _ hm => exact ih (List.cons_ne_nil b bt) hsorted.of_cons s hm

/-! ## Validity and shape of parsed dates -/

/-- A date with its month and day in range for the Gregorian calendar. -/
def ValidDate (dt : Date) : Prop :=
  1 ≤ dt.year ∧ 1 ≤ dt.month ∧ dt.month ≤ 12 ∧ 1 ≤ dt.day ∧
    dt.day ≤ daysInMonth (leapYear dt.year) dt.month

theorem isDigit_bounds {ch : Char} (h : ch.isDigit = true) :
    48 ≤ ch.toNat ∧ ch.toNat ≤ 57 := by
  simp only [Char.isDigit] at h
  rw [Bool.and_eq_true] at h
  obtain ⟨h1, h2⟩ := h
  rw [decide_eq_true_iff] at h1 h2
  exact ⟨h1, h2⟩

theorem parseDateChars_elim {cs : List Char} {dt : Date} (h : parseDateChars cs = some dt) :
    ∃ p1 p2 p3 p4 p5 p6 p7 p8 : Char,
      cs = [p1, p2, p3, p4, '-', p5, p6, '-', p7, p8] ∧
      p1.isDigit = true ∧ p2.isDigit = true ∧ p3.isDigit = true ∧ p4.isDigit = true ∧
      p5.isDigit = true ∧ p6.isDigit = true ∧ p7.isDigit = true ∧ p8.isDigit = true ∧
      dt.year = 1000 * digitVal p1 + 100 * digitVal p2 + 10 * digitVal p3 + digitVal p4 ∧
      dt.month = 10 * digitVal p5 + digitVal p6 ∧
      dt.day = 10 * digitVal p7 + digitVal p8 ∧
      ValidDate dt := by
  cases cs with
  | nil => exact False.elim (nomatch h)
  | cons c1 cs =>
  cases cs with
  | nil => exact False.elim (nomatch h)
  | cons c2 cs =>
  cases cs with
  | nil => exact False.elim (nomatch h)
  | cons c3 cs =>
  cases cs with
  | nil => exact False.elim (nomatch h)
  | cons c4 cs =>
  cases cs with
  | nil => exact False.elim (nomatch h)
  | cons c5 cs =>
  cases cs with
  | nil => exact False.elim (nomatch h)
  | cons c6 cs =>
  cases cs with
  | nil => exact False.elim (nomatch h)
  | cons c7 cs =>
  cases cs with
  | nil => exact False.elim (nomatch h)
  | cons c8 cs =>
  cases cs with
  | nil => exact False.elim (nomatch h)
  | cons c9 cs =>
  cases cs with
  | nil => exact False.elim (nomatch h)
  | cons c10 cs =>
  cases cs with
  | cons c11 cs' => exact False.elim (nomatch h)
  | nil =>
    simp only [parseDateChars] at h
    split at h
    next hcond =>
      obtain ⟨hcond, hg10⟩ := Bool.and_eq_true_iff.mp hcond
      obtain ⟨hcond, hg9⟩ := Bool.and_eq_true_iff.mp hcond
      obtain ⟨hcond, hg8⟩ := Bool.and_eq_true_iff.mp hcond
      obtain ⟨hcond, hg7⟩ := Bool.and_eq_true_iff.mp hcond
      obtain ⟨hcond, hg6⟩ := Bool.and_eq_true_iff.mp hcond
      obtain ⟨hcond, hg5⟩ := Bool.and_eq_true_iff.mp hcond
      obtain ⟨hcond, hg4⟩ := Bool.and_eq_true_iff.mp hcond
      obtain ⟨hcond, hg3⟩ := Bool.and_eq_true_iff.mp hcond
      obtain ⟨hg1, hg2⟩ := Bool.and_eq_true_iff.mp hcond
      have hc5 : c5 = '-' := eq_of_beq hg5
      have hc8 : c8 = '-' := eq_of_beq hg8
      subst hc5
      subst hc8
      split at h
      next hrange =>
        obtain ⟨hrange, hr5⟩ := Bool.and_eq_true_iff.mp hrange
        obtain ⟨hrange, hr4⟩ := Bool.and_eq_true_iff.mp hrange
        obtain ⟨hrange, hr3⟩ := Bool.and_eq_true_iff.mp hrange
        obtain ⟨hr1, hr2⟩ := Bool.and_eq_true_iff.mp hrange
        rw [decide_eq_true_iff] at hr1 hr2 hr3 hr4 hr5
        cases h
        exact ⟨c1, c2, c3, c4, c6, c7, c9, c10, rfl, hg1, hg2, hg3, hg4, hg6, hg7, hg9, hg10,
          rfl, rfl, rfl, hr1, hr2, hr3, hr4, hr5⟩
      · cases h
    · cases h

theorem parse_date_valid {s : String} {dt : Date} (h : parse_date s = some dt) :
    ValidDate dt := by
  obtain ⟨p1, p2, p3, p4, p5, p6, p7, p8, hcs, hrest⟩ := parseDateChars_elim h
  exact hrest.2.2.2.2.2.2.2.2.2.2.2

/-! ## Monotonicity of the day ordinal -/

theorem dayOfYear_le (l : Bool) (m d : Nat) (h1 : 1 ≤ m) (h2 : m ≤ 12)
    (h3 : d ≤ daysInMonth l m) :
    daysBeforeMonth l m + d ≤ if l then 366 else 365 := by
  cases l <;> interval_cases m <;> simp_all [daysBeforeMonth, daysInMonth] <;> omega

theorem daysBeforeYear_succ_ge (y : Nat) (hy : 1 ≤ y) :
    daysBeforeYear y + (if leapYear y then 366 else 365) ≤ daysBeforeYear (y + 1) := by
  unfold daysBeforeYear
  by_cases h4 : y % 4 = 0 <;> by_cases h100 : y % 100 = 0 <;> by_cases h400 : y % 400 = 0 <;>
    simp [leapYear, h4, h100, h400] <;> omega

theorem daysBeforeYear_step (n : Nat) : daysBeforeYear n ≤ daysBeforeYear (n + 1) := by
  cases n with
  | zero => decide
  | succ k =>
    have := daysBeforeYear_succ_ge (k + 1) (by omega)
    split at this <;> omega

theorem daysBeforeYear_mono {y y' : Nat} (h : y ≤ y') :
    daysBeforeYear y ≤ daysBeforeYear y' := by
  induction h with
  | refl => exact le_refl _
  | step _ ih => exact le_trans ih (daysBeforeYear_step _)

theorem daysBeforeMonth_lt (l : Bool) {m m' d d' : Nat} (h1 : 1 ≤ m) (hmm : m < m')
    (h2 : m' ≤ 12) (h3 : d ≤ daysInMonth l m) (h4 : 1 ≤ d') :
    daysBeforeMonth l m + d < daysBeforeMonth l m' + d' := by
  have hm12 : m ≤ 12 := by omega
  cases l <;> interval_cases m <;> interval_cases m' <;>
    simp_all [daysBeforeMonth, daysInMonth] <;> omega

theorem toOrdinal_lt_of_lex {a b : Date} (ha : ValidDate a) (hb : ValidDate b)
    (hlex : a.year < b.year ∨ (a.year = b.year ∧ (a.month < b.month ∨
      (a.month = b.month ∧ a.day < b.day)))) :
    toOrdinal a < toOrdinal b := by
  obtain ⟨hay, ham1, ham2, had1, had2⟩ := ha
  obtain ⟨hby, hbm1, hbm2, hbd1, hbd2⟩ := hb
  unfold toOrdinal
  rcases hlex with hy | ⟨hy, hm | ⟨hm, hd⟩⟩
  · have h1 := dayOfYear_le (leapYear a.year) a.month a.day ham1 ham2 had2
    have h2 := daysBeforeYear_succ_ge a.year hay
    have h3 : daysBeforeYear (a.year + 1) ≤ daysBeforeYear b.year :=
      daysBeforeYear_mono (by omega)
    have h4 : 1 ≤ daysBeforeMonth (leapYear b.year) b.month + b.day := by omega
    cases hl : leapYear a.year <;> simp [hl] at h1 h2 <;> omega
  · rw [hy] at had2 ⊢
    have := daysBeforeMonth_lt (leapYear b.year) ham1 hm hbm2 had2 hbd1
    omega
  · rw [hy, hm]
    omega

theorem charListLe_cons_elim {x y : Char} {xs ys : List Char}
    (h : charListLe (x :: xs) (y :: ys) = true) :
    x.toNat < y.toNat ∨ (x.toNat = y.toNat ∧ charListLe xs ys = true) := by
  simp only [charListLe] at h
  by_cases h1 : x.toNat < y.toNat
  · exact Or.inl h1
  · by_cases h2 : y.toNat < x.toNat
    · rw [if_neg h1, if_pos h2] at h; cases h
    · rw [if_neg h1, if_neg h2] at h
      exact Or.inr ⟨by omega, h⟩

theorem charListLe_parse_le {cs1 cs2 : List Char} {a b : Date}
    (h1 : parseDateChars cs1 = some a) (h2 : parseDateChars cs2 = some b)
    (hle : charListLe cs1 cs2 = true) : toOrdinal a ≤ toOrdinal b := by
  obtain ⟨p1, p2, p3, p4, p5, p6, p7, p8, hcs1, hp1, hp2, hp3, hp4, hp5, hp6, hp7, hp8,
    hya, hma, hda, hva⟩ := parseDateChars_elim h1
  obtain ⟨q1, q2, q3, q4, q5, q6, q7, q8, hcs2, hq1, hq2, hq3, hq4, hq5, hq6, hq7, hq8,
    hyb, hmb, hdb, hvb⟩ := parseDateChars_elim h2
  subst hcs1
  subst hcs2
  obtain ⟨hp1a, hp1b⟩ := isDigit_bounds hp1
  obtain ⟨hp2a, hp2b⟩ := isDigit_bounds hp2
  obtain ⟨hp3a, hp3b⟩ := isDigit_bounds hp3
  obtain ⟨hp4a, hp4b⟩ := isDigit_bounds hp4
  obtain ⟨hp5a, hp5b⟩ := isDigit_bounds hp5
  obtain ⟨hp6a, hp6b⟩ := isDigit_bounds hp6
  obtain ⟨hp7a, hp7b⟩ := isDigit_bounds hp7
  obtain ⟨hp8a, hp8b⟩ := isDigit_bounds hp8
  obtain ⟨hq1a, hq1b⟩ := isDigit_bounds hq1
  obtain ⟨hq2a, hq2b⟩ := isDigit_bounds hq2
  obtain ⟨hq3a, hq3b⟩ := isDigit_bounds hq3
  obtain ⟨hq4a, hq4b⟩ := isDigit_bounds hq4
  obtain ⟨hq5a, hq5b⟩ := isDigit_bounds hq5
  obtain ⟨hq6a, hq6b⟩ := isDigit_bounds hq6
  obtain ⟨hq7a, hq7b⟩ := isDigit_bounds hq7
  obtain ⟨hq8a, hq8b⟩ := isDigit_bounds hq8
  simp only [digitVal] at hya hma hda hyb hmb hdb
  rcases charListLe_cons_elim hle with hlt | ⟨he1, hle⟩
  · exact le_of_lt (toOrdinal_lt_of_lex hva hvb (Or.inl (by omega)))
  rcases charListLe_cons_elim hle with hlt | ⟨he2, hle⟩
  · exact le_of_lt (toOrdinal_lt_of_lex hva hvb (Or.inl (by omega)))
  rcases charListLe_cons_elim hle with hlt | ⟨he3, hle⟩
  · exact le_of_lt (toOrdinal_lt_of_lex hva hvb (Or.inl (by omega)))
  rcases charListLe_cons_elim hle with hlt | ⟨he4, hle⟩
  · exact le_of_lt (toOrdinal_lt_of_lex hva hvb (Or.inl (by omega)))
  rcases charListLe_cons_elim hle with hlt | ⟨he5, hle⟩
  · exact absurd hlt (lt_irrefl _)
  rcases charListLe_cons_elim hle with hlt | ⟨he6, hle⟩
  · exact le_of_lt (toOrdinal_lt_of_lex hva hvb (Or.inr ⟨by omega, Or.inl (by omega)⟩))
  rcases charListLe_cons_elim hle with hlt | ⟨he7, hle⟩
  · exact le_of_lt (toOrdinal_lt_of_lex hva hvb (Or.inr ⟨by omega, Or.inl (by omega)⟩))
  rcases charListLe_cons_elim hle with hlt | ⟨he8, hle⟩
  · exact absurd hlt (lt_irrefl _)
  rcases charListLe_cons_elim hle with hlt | ⟨he9, hle⟩
  · exact le_of_lt (toOrdinal_lt_of_lex hva hvb
      (Or.inr ⟨by omega, Or.inr ⟨by omega, by omega⟩⟩))
  rcases charListLe_cons_elim hle with hlt | ⟨he10, hle⟩
  · exact le_of_lt (toOrdinal_lt_of_lex hva hvb
      (Or.inr ⟨by omega, Or.inr ⟨by omega, by omega⟩⟩))
  have hy : a.year = b.year := by omega
  have hm : a.month = b.month := by omega
  have hd : a.day = b.day := by omega
  unfold toOrdinal
  rw [hy, hm, hd]

theorem strLe_parse_le {s1 s2 : String} {a b : Date} (h1 : parse_date s1 = some a)
    (h2 : parse_date s2 = some b) (hle : strLe s1 s2) : toOrdinal a ≤ toOrdinal b :=
  charListLe_parse_le h1 h2 hle

/-! ## Structure of the generated date range -/

theorem mem_dateRange {lo hi x : Nat} : x ∈ dateRange lo hi ↔ lo ≤ x ∧ x ≤ hi := by
  unfold dateRange
  simp only [List.mem_map, List.mem_range]
  constructor
  · intro hx
    obtain ⟨i, h1, h2⟩ := hx
    omega
  · intro hx
    exact ⟨x - lo, by omega, by omega⟩

theorem dateRange_nodup (lo hi : Nat) : (dateRange lo hi).Nodup :=
  List.Nodup.map (fun a b h => by omega) (List.nodup_range _)

theorem dateRange_chain (lo hi : Nat) :
    List.Chain' (fun a b => b = a + 1) (dateRange lo hi) := by
  rw [List.chain'_iff_get]
  intro i h
  unfold dateRange at h ⊢
  simp only [List.length_map, List.length_range] at h
  simp only [List.get_eq_getElem, List.getElem_map, List.getElem_range]
  omega

theorem dateRange_head {lo hi : Nat} (h : lo ≤ hi) : (dateRange lo hi).head? = some lo := by
  unfold dateRange
  rw [show hi + 1 - lo = (hi - lo) + 1 by omega, List.range_succ_eq_map, List.map_cons]
  rfl

theorem dateRange_getLast {lo hi : Nat} (h : lo ≤ hi) :
    (dateRange lo hi).getLast? = some hi := by
  unfold dateRange
  rw [List.getLast?_map, List.getLast?_range, if_neg (by omega : ¬hi + 1 - lo = 0)]
  have hmap : Option.map (fun x => lo + x) (some (hi + 1 - lo - 1)) =
      some (lo + (hi + 1 - lo - 1)) := rfl
  rw [hmap]
  congr 1
  omega

/-- The day ordinal of an entry's date (0 for an unparseable date; under the
all-dates-parse hypothesis of C1 it is always the true ordinal). -/
def entryOrdD (e : Entry) : Nat :=
  match parse_date e.date with
  | some dt => toOrdinal dt
  | none => 0

/-- C1: for a non-empty record list whose dates all parse, the index of the
table returned by `wrangle_data` is exactly the contiguous daily ordinal
range from the minimum to the maximum record date, with no gaps (each row is
the previous day plus one) and no duplicates. -/
theorem claim1_index_contiguous (records : List Entry) (cols : List String)
    (df : DataFrame) (omin omax : Nat)
    (hne : records ≠ [])
    (hparse : ∀ e ∈ records, (parse_date e.date).isSome = true)
    (hok : wrangle_data records cols = .ok df)
    (hmin : (records.map entryOrdD).min? = some omin)
    (hmax : (records.map entryOrdD).max? = some omax) :
    df.index = dateRange omin omax ∧
    df.index.head? = some omin ∧
    df.index.getLast? = some omax ∧
    List.Chain' (fun a b => b = a + 1) df.index ∧
    df.index.Nodup := by
  obtain ⟨df₀, df₁, hinit, hloop, hdf⟩ := wrangle_ok_elim hok
  subst hdf
  obtain ⟨a, b, hidx, hcols2, hcells, d0, rest, hsort, ha, hb⟩ := initialize_ok_elim hinit
  have hidxeq0 : (fillna df₁).index = dateRange (toOrdinal a) (toOrdinal b) := by
    show df₁.index = _
    rw [(wrangleLoop_ok_inv hloop).1, hidx]
  rw [List.min?_eq_some_iff'] at hmin
  rw [List.max?_eq_some_iff'] at hmax
  obtain ⟨hminmem, hminle⟩ := hmin
  obtain ⟨hmaxmem, hmaxge⟩ := hmax
  have hlow : ∀ x ∈ records.map entryOrdD, toOrdinal a ≤ x := by
    intro x hx
    obtain ⟨e, he, hex⟩ := List.mem_map.mp hx
    obtain ⟨dt, hdt⟩ := Option.isSome_iff_exists.mp (hparse e he)
    have hsle : strLe d0 e.date :=
      sorted_head_le hsort e.date (List.mem_map_of_mem _ he)
    have hord := strLe_parse_le ha hdt hsle
    rw [← hex]
    unfold entryOrdD
    rw [hdt]
    exact hord
  have hhigh : ∀ x ∈ records.map entryOrdD, x ≤ toOrdinal b := by
    intro x hx
    obtain ⟨e, he, hex⟩ := List.mem_map.mp hx
    obtain ⟨dt, hdt⟩ := Option.isSome_iff_exists.mp (hparse e he)
    have hmm : e.date ∈ (records.map (·.date)).insertionSort strLe :=
      (List.perm_insertionSort strLe _).mem_iff.mpr (List.mem_map_of_mem _ he)
    have hsorted := List.sorted_insertionSort strLe (records.map (·.date))
    rw [hsort] at hsorted hmm
    have hsle : strLe e.date ((d0 :: rest).getLast (List.cons_ne_nil d0 rest)) :=
      sorted_le_getLast _ hsorted e.date hmm
    have hord := strLe_parse_le hdt hb hsle
    rw [← hex]
    unfold entryOrdD
    rw [hdt]
    exact hord
  have hamem : toOrdinal a ∈ records.map entryOrdD := by
    have hd0mem : d0 ∈ records.map (·.date) := by
      have hd0s : d0 ∈ (records.map (·.date)).insertionSort strLe := by
        rw [hsort]
        exact List.mem_cons_self _ _
      exact (List.perm_insertionSort strLe _).mem_iff.mp hd0s
    obtain ⟨e, he, hed⟩ := List.mem_map.mp hd0mem
    have hoe : entryOrdD e = toOrdinal a := by
      unfold entryOrdD
      rw [hed, ha]
    rw [← hoe]
    exact List.mem_map_of_mem _ he
  have hbmem : toOrdinal b ∈ records.map entryOrdD := by
    have hlmem : (d0 :: rest).getLast (List.cons_ne_nil d0 rest) ∈ records.map (·.date) := by
      have hls : (d0 :: rest).getLast (List.cons_ne_nil d0 rest) ∈
          (records.map (·.date)).insertionSort strLe := by
        rw [hsort]
        exact List.getLast_mem (List.cons_ne_nil d0 rest)
      exact (List.perm_insertionSort strLe _).mem_iff.mp hls
    obtain ⟨e, he, hed⟩ := List.mem_map.mp hlmem
    have hoe : entryOrdD e = toOrdinal b := by
      unfold entryOrdD
      rw [hed, hb]
    rw [← hoe]
    exact List.mem_map_of_mem _ he
  have hae : toOrdinal a = omin := le_antisymm (hlow omin hminmem) (hminle _ hamem)
  have hbe : toOrdinal b = omax := le_antisymm (hmaxge _ hbmem) (hhigh omax hmaxmem)
  rw [hae, hbe] at hidxeq0
  have hminmax : omin ≤ omax := hminle omax hmaxmem
  exact ⟨hidxeq0,
    by rw [hidxeq0]; exact dateRange_head hminmax,
    by rw [hidxeq0]; exact dateRange_getLast hminmax,
    by rw [hidxeq0]; exact dateRange_chain _ _,
    by rw [hidxeq0]; exact dateRange_nodup _ _⟩

/-- C1 witness: the two-record scenario input, whose index is the three
consecutive days 2021-01-01 .. 2021-01-03. -/
theorem claim1_witness :
    (⟨[737791, 737792, 737793], ["A"], [[some 5], [some 0], [some 7]]⟩ : DataFrame).index =
        dateRange 737791 737793 ∧
    (⟨[737791, 737792, 737793], ["A"], [[some 5], [some 0], [some 7]]⟩ : DataFrame).index.head? =
        some 737791 ∧
    (⟨[737791, 737792, 737793], ["A"], [[some 5], [some 0], [some 7]]⟩ :
        DataFrame).index.getLast? = some 737793 ∧
    List.Chain' (fun a b => b = a + 1)
      (⟨[737791, 737792, 737793], ["A"], [[some 5], [some 0], [some 7]]⟩ : DataFrame).index ∧
    (⟨[737791, 737792, 737793], ["A"], [[some 5], [some 0], [some 7]]⟩ :
        DataFrame).index.Nodup :=
  claim1_index_contiguous
    [⟨"2021-01-01", [("A", some 5)]⟩, ⟨"2021-01-03", [("A", some 7)]⟩] ["A"]
    ⟨[737791, 737792, 737793], ["A"], [[some 5], [some 0], [some 7]]⟩ 737791 737793
    (by decide) (by decide) (by decide) (by decide) (by decide)

/-! ## Error behavior on missing keys and malformed dates -/

theorem rowPos_isSome_of_mem {df : DataFrame} {d : Nat} (h : d ∈ df.index) :
    (rowPos df d).isSome = true := by
  obtain ⟨i, hi⟩ := findIdxOpt_of_mem h
  rw [rowPos, hi]
  rfl

theorem colPos_isSome_of_mem {df : DataFrame} {c : String} (h : c ∈ df.columns) :
    (colPos df c).isSome = true := by
  obtain ⟨i, hi⟩ := findIdxOpt_of_mem h
  rw [colPos, hi]
  rfl

theorem initialize_parse_mem_index {records : List Entry} {cols : List String}
    {df₀ : DataFrame} (hinit : initialize_dataframe records cols = .ok df₀)
    {e : Entry} (he : e ∈ records) {dt : Date} (hdt : parse_date e.date = some dt) :
    toOrdinal dt ∈ df₀.index := by
  obtain ⟨a, b, hidx, -, -, d0, rest', hsort, ha, hb⟩ := initialize_ok_elim hinit
  rw [hidx, mem_dateRange]
  constructor
  · exact strLe_parse_le ha hdt (sorted_head_le hsort e.date (List.mem_map_of_mem _ he))
  · have hmm : e.date ∈ (records.map (·.date)).insertionSort strLe :=
      (List.perm_insertionSort strLe _).mem_iff.mpr (List.mem_map_of_mem _ he)
    have hsorted := List.sorted_insertionSort strLe (records.map (·.date))
    rw [hsort] at hsorted hmm
    exact strLe_parse_le hdt hb (sorted_le_getLast _ hsorted e.date hmm)

theorem initialize_error_cases {records : List Entry} {cols : List String} {err : PyError}
    (hne : records ≠ []) (h : initialize_dataframe records cols = .error err) :
    err = .valueError := by
  simp only [initialize_dataframe] at h
  split at h
  next hs =>
    have hp := List.perm_insertionSort strLe (records.map (·.date))
    rw [hs] at hp
    have hl := hp.length_eq
    simp only [List.length_nil, List.length_map] at hl
    exact absurd (List.eq_nil_of_length_eq_zero hl.symm) hne
  next =>
    split at h
    · cases h
    · cases h
      rfl

theorem fillEntry_keyError_missing {e : Entry} {dt : Date} :
    ∀ {cols : List String} {df : DataFrame},
    parse_date e.date = some dt → (rowPos df (toOrdinal dt)).isSome = true →
    (∀ col ∈ cols, (colPos df col).isSome = true) →
    (∀ col ∈ cols, e.fields.lookup col = none → cellVal df (toOrdinal dt) col = none) →
    (∃ col ∈ cols, e.fields.lookup col = none) →
    fillEntry cols df e = .error .keyError := by
  intro cols
  induction cols with
  | nil =>
    intro df _ _ _ _ hex
    obtain ⟨col, hmem, -⟩ := hex
    cases hmem
  | cons col rest ih =>
    intro df hdt hrow hcols hnone hex
    obtain ⟨ri, hri⟩ := Option.isSome_iff_exists.mp hrow
    obtain ⟨ci, hci⟩ :=
      Option.isSome_iff_exists.mp (hcols col (List.mem_cons_self col rest))
    cases hlook : e.fields.lookup col with
    | none =>
      have hcnone : cellVal df (toOrdinal dt) col = none :=
        hnone col (List.mem_cons_self col rest) hlook
      rw [cellVal_pos hri hci] at hcnone
      rw [fillEntry_cons,
        set_dataframe_value_keyError_pos hdt hri hci hcnone hlook, exc_bind_error]
    | some v =>
      obtain ⟨df1, hstep⟩ := set_dataframe_value_ok_of hdt hri hci (by rw [hlook]; rfl)
      obtain ⟨hidx1, hcols1⟩ := set_dataframe_value_ok_inv hstep
      rw [fillEntry_cons, hstep, exc_bind_ok]
      have hex' : ∃ c2 ∈ rest, e.fields.lookup c2 = none := by
        obtain ⟨c2, hc2mem, hc2⟩ := hex
        cases hc2mem with
        | head => rw [hlook] at hc2; cases hc2
        | tail _ hm => exact ⟨c2, hm, hc2⟩
      refine ih hdt ?_ ?_ ?_ hex'
      · rw [rowPos_congr hidx1, hri]
        rfl
      · intro c2 hc2
        rw [colPos_congr hcols1]
        exact hcols c2 (List.mem_cons_of_mem col hc2)
      · intro c2 hc2 hc2none
        have hc2col : col ≠ c2 := by
          intro hx
          rw [← hx, hlook] at hc2none
          cases hc2none
        have hpres : cellVal df1 (toOrdinal dt) c2 = cellVal df (toOrdinal dt) c2 :=
          set_dataframe_value_other hstep (Or.inl hc2col)
        rw [hpres]
        exact hnone c2 (List.mem_cons_of_mem col hc2) hc2none

/-- C6 (amended): a record that does not contain a requested column's field
does not have that (record, column) pair skipped: whenever the first record
lacks some requested column (its cell still unset at that point),
`wrangle_data` fails with a KeyError from the unguarded `entry[column]`
access and returns no table.  (Dates are assumed parseable so that the
failure is isolated to the absent key.) -/
theorem claim6_missing_key_raises (e : Entry) (rest : List Entry) (cols : List String)
    (hparse : ∀ x ∈ e :: rest, (parse_date x.date).isSome = true)
    (hmiss : ∃ c ∈ cols, e.fields.lookup c = none) :
    wrangle_data (e :: rest) cols = .error .keyError := by
  cases hinit : initialize_dataframe (e :: rest) cols with
  | error err =>
    obtain ⟨dt, hdt⟩ :=
      Option.isSome_iff_exists.mp (hparse e (List.mem_cons_self e rest))
    have hv := initialize_error_cases (List.cons_ne_nil e rest) hinit
    subst hv
    exfalso
    obtain ⟨d0, rest', hsort⟩ : ∃ d0 rest',
        ((e :: rest).map (·.date)).insertionSort strLe = d0 :: rest' := by
      cases hs : ((e :: rest).map (·.date)).insertionSort strLe with
      | nil =>
        have hp := List.perm_insertionSort strLe ((e :: rest).map (·.date))
        rw [hs] at hp
        have := hp.length_eq
        simp at this
      | cons d0 rest' => exact ⟨d0, rest', rfl⟩
    have hd0 : (parse_date d0).isSome = true := by
      have hd0m : d0 ∈ (e :: rest).map (·.date) := by
        have : d0 ∈ ((e :: rest).map (·.date)).insertionSort strLe := by
          rw [hsort]
          exact List.mem_cons_self _ _
        exact (List.perm_insertionSort strLe _).mem_iff.mp this
      obtain ⟨x, hxm, hxd⟩ := List.mem_map.mp hd0m
      rw [← hxd]
      exact hparse x hxm
    have hdl : (parse_date ((d0 :: rest').getLast (List.cons_ne_nil d0 rest'))).isSome =
        true := by
      have hdlm : (d0 :: rest').getLast (List.cons_ne_nil d0 rest') ∈
          (e :: rest).map (·.date) := by
        have : (d0 :: rest').getLast (List.cons_ne_nil d0 rest') ∈
            ((e :: rest).map (·.date)).insertionSort strLe := by
          rw [hsort]
          exact List.getLast_mem (List.cons_ne_nil d0 rest')
        exact (List.perm_insertionSort strLe _).mem_iff.mp this
      obtain ⟨x, hxm, hxd⟩ := List.mem_map.mp hdlm
      rw [← hxd]
      exact hparse x hxm
    obtain ⟨a, ha⟩ := Option.isSome_iff_exists.mp hd0
    obtain ⟨b, hbv⟩ := Option.isSome_iff_exists.mp hdl
    simp only [initialize_dataframe, hsort, ha, hbv] at hinit
    cases hinit
  | ok df₀ =>
    obtain ⟨dt, hdt⟩ :=
      Option.isSome_iff_exists.mp (hparse e (List.mem_cons_self e rest))
    have hmemidx : toOrdinal dt ∈ df₀.index :=
      initialize_parse_mem_index hinit (List.mem_cons_self e rest) hdt
    have hfe : fillEntry cols df₀ e = .error .keyError := by
      refine fillEntry_keyError_missing hdt (rowPos_isSome_of_mem hmemidx) ?_ ?_ hmiss
      · intro col hcol
        refine colPos_isSome_of_mem ?_
        rw [initialize_columns hinit]
        exact hcol
      · intro col _ _
        exact initialize_cells_none hinit _ _
    unfold wrangle_data
    rw [hinit, exc_bind_ok, List.foldlM_cons, hfe, exc_bind_error, exc_bind_error]

/-- C6 amended witness: a record carrying column B but lacking requested
column A makes the wrangle of columns B, A fail with a KeyError. -/
theorem claim6_witness :
    wrangle_data [⟨"2021-01-01", [("B", some 1)]⟩] ["B", "A"] = .error .keyError :=
  claim6_missing_key_raises ⟨"2021-01-01", [("B", some 1)]⟩ [] ["B", "A"]
    (by decide) ⟨"A", by decide, rfl⟩

/-- C7 counterexample: the second record's date '2021-01-04X' is malformed,
but the first record (which lacks requested column A) is processed first, so
`wrangle_data` fails with a KeyError instead of the claimed ParseError. -/
theorem claim7_counterexample :
    wrangle_data [⟨"2021-01-01", []⟩, ⟨"2021-01-04X", [("A", some 1)]⟩,
                  ⟨"2021-01-09", [("A", some 2)]⟩] ["A"] = .error .keyError ∧
    (Except.error .keyError : Except PyError DataFrame) ≠ .error .valueError := by
  constructor
  · decide
  · decide

theorem wrangleLoop_valueError {cols : List String} :
    ∀ {records : List Entry} {df : DataFrame},
    cols ≠ [] →
    (∀ e ∈ records, ∀ c ∈ cols, (e.fields.lookup c).isSome = true) →
    (∀ e ∈ records, ∀ dt, parse_date e.date = some dt →
      (rowPos df (toOrdinal dt)).isSome = true) →
    (∀ c ∈ cols, (colPos df c).isSome = true) →
    (∃ e ∈ records, parse_date e.date = none) →
    records.foldlM (fillEntry cols) df = .error .valueError := by
  intro records
  induction records with
  | nil =>
    intro df _ _ _ _ hex
    obtain ⟨e, hmem, -⟩ := hex
    cases hmem
  | cons e rest ih =>
    intro df hcne hkeys hrow hcols hex
    cases hdt : parse_date e.date with
    | none =>
      rw [List.foldlM_cons, fillEntry_valueError hdt hcne, exc_bind_error]
    | some dt =>
      obtain ⟨df1, hstep, hidx1, hcols1⟩ := fillEntry_ok_of hdt
        (hrow e (List.mem_cons_self e rest) dt hdt)
        (fun c hc => ⟨hcols c hc, hkeys e (List.mem_cons_self e rest) c hc⟩)
      rw [List.foldlM_cons, hstep, exc_bind_ok]
      have hex' : ∃ x ∈ rest, parse_date x.date = none := by
        obtain ⟨x, hxm, hx⟩ := hex
        cases hxm with
        | head => rw [hdt] at hx; cases hx
        | tail _ hm => exact ⟨x, hm, hx⟩
      refine ih hcne (fun x hx => hkeys x (List.mem_cons_of_mem e hx)) ?_ ?_ hex'
      · intro x hx dtx hdtx
        rw [rowPos_congr hidx1]
        exact hrow x (List.mem_cons_of_mem e hx) dtx hdtx
      · intro c hc
        rw [colPos_congr hcols1]
        exact hcols c hc

/-- C7 (amended): for a non-empty requested column list and records that all
contain every requested column, an input containing a record with a
malformed date string makes `wrangle_data` fail with the pandas ValueError
(the spec's ParseError) and return no table.  (Records lacking a requested
column can pre-empt this with a KeyError, as the counterexample shows.) -/
theorem claim7_malformed_date_fails (records : List Entry) (cols : List String)
    (hcne : cols ≠ [])
    (hkeys : ∀ e ∈ records, ∀ c ∈ cols, (e.fields.lookup c).isSome = true)
    (hbad : ∃ e ∈ records, parse_date e.date = none) :
    wrangle_data records cols = .error .valueError := by
  have hne : records ≠ [] := by
    obtain ⟨e, hmem, -⟩ := hbad
    intro hx
    rw [hx] at hmem
    cases hmem
  cases hinit : initialize_dataframe records cols with
  | error err =>
    have hv := initialize_error_cases hne hinit
    subst hv
    unfold wrangle_data
    rw [hinit, exc_bind_error]
  | ok df₀ =>
    have hloop : records.foldlM (fillEntry cols) df₀ = .error .valueError := by
      refine wrangleLoop_valueError hcne hkeys ?_ ?_ hbad
      · intro e he dt hdt
        exact rowPos_isSome_of_mem (initialize_parse_mem_index hinit he hdt)
      · intro c hc
        refine colPos_isSome_of_mem ?_
        rw [initialize_columns hinit]
        exact hc
    unfold wrangle_data
    rw [hinit, exc_bind_ok, hloop, exc_bind_error]

/-- C7 amended witness: a well-formed record followed by a record with the
malformed date string 'bad'. -/
theorem claim7_witness :
    wrangle_data [⟨"2021-01-01", [("A", some 1)]⟩, ⟨"bad", [("A", some 2)]⟩] ["A"] =
      .error .valueError :=
  claim7_malformed_date_fails
    [⟨"2021-01-01", [("A", some 1)]⟩, ⟨"bad", [("A", some 2)]⟩] ["A"]
    (by decide) (by decide) ⟨⟨"bad", [("A", some 2)]⟩, by decide, rfl⟩
